import Mathlib

/-!
# Verification of the fuel/compensation reconciliation engine

Shallow embedding of the fuel summary engine of `src/services/components/fuelSection.tsx`
(the `fuelSummary` memo together with its helper functions) and of the write-boundary
validation `validateFuelRecord` of the fuel API module.

Modelling conventions:
* JavaScript strings are embedded as `List Char` (`JsStr`).
* JavaScript numbers are embedded as exact rationals `ℚ`; the write boundary, whose code
  tests `Number.isNaN`, additionally models the NaN value (`JsNum.nan`).  Floating-point
  rounding is outside the scope of this development.
* `Map` insertion-order grouping is embedded as an association list (`List MonthBucket`)
  updated in place, and the stable `Array.prototype.sort` as an insertion sort driven by
  the source's comparator.
* Display-only fields produced with `toLocaleString` (`diffLabel`, `adjustedDiffLabel`,
  the `explanation` sentence) are locale formatting and are not modelled; every numeric
  and status field of the summary is.
-/

set_option linter.all false

namespace FuelSpec

/-- JavaScript strings, modelled as lists of characters. -/
abbrev JsStr := List Char

/-- The whitespace characters relevant to `String.prototype.trim` on the data handled
here (space, tab, line feed, carriage return). -/
def isJsSpace (c : Char) : Bool :=
  c = ' ' || c = '\t' || c = '\n' || c = '\r'

/-- Model of `value.trim()`: strip whitespace from both ends. -/
def jsTrim (s : JsStr) : JsStr :=
  ((s.dropWhile isJsSpace).reverse.dropWhile isJsSpace).reverse

/-- `normalizeDate` from `fuelSection.tsx`:
`value ? value.trim().slice(0, 10) : ''` (the only falsy string is `''`). -/
def normalizeDate (value : JsStr) : JsStr :=
  if value = [] then [] else (jsTrim value).take 10

/-- Helper for `splitDash`: accumulates the current component in reverse. -/
def splitDashAux : JsStr → JsStr → List JsStr
  | [], acc => [acc.reverse]
  | c :: rest, acc =>
    if c = '-' then acc.reverse :: splitDashAux rest []
    else splitDashAux rest (c :: acc)

/-- Model of `string.split('-')`. -/
def splitDash (s : JsStr) : List JsStr := splitDashAux s []

/-- Numeric value of a string of decimal digits. -/
def digitsToNat (s : JsStr) : ℕ :=
  s.foldl (fun n c => 10 * n + (c.toNat - 48)) 0

/-- Model of the JS `Number(string)` coercion as used on month components of a date:
the empty/whitespace string coerces to `0`, a string of decimal digits to its value,
anything else to NaN (`none`).  (Exotic accepted forms such as hexadecimal or exponent
notation do not occur in `YYYY-MM-DD` month components and are mapped to NaN.) -/
def jsStringToNum (s : JsStr) : Option ℕ :=
  let t := jsTrim s
  if t = [] then some 0
  else if t.all Char.isDigit then some (digitsToNat t) else none

/-- `MONTH_LABELS` from `fuelSection.tsx`. -/
def MONTH_LABELS : List JsStr :=
  ["Январь".toList, "Февраль".toList, "Март".toList, "Апрель".toList,
   "Май".toList, "Июнь".toList, "Июль".toList, "Август".toList,
   "Сентябрь".toList, "Октябрь".toList, "Ноябрь".toList, "Декабрь".toList]

/-- The record returned by `getMonthInfo`. -/
structure MonthInfo where
  key : JsStr
  label : JsStr
deriving DecidableEq, Repr

/-- `getMonthInfo` from `fuelSection.tsx`: normalize the date, split on `'-'`,
reject an empty year or a month index outside 0..11, otherwise return the
`year-month` key and a human label. -/
def getMonthInfo (date : JsStr) : Option MonthInfo :=
  let normalized := normalizeDate date
  if normalized = [] then none
  else
    let parts := splitDash normalized
    let year := parts.getD 0 []
    match parts.get? 1 with
    | none => none
    | some month =>
      match jsStringToNum month with
      | none => none
      | some n =>
        if year = [] || n = 0 || 12 < n then none
        else some ⟨year ++ '-' :: month, (MONTH_LABELS.getD (n - 1) []) ++ ' ' :: year⟩

/-- `FUEL_CONSUMPTION_RATE` (liters per 100 km). -/
def FUEL_CONSUMPTION_RATE : ℚ := 9.4

/-- `FUEL_CONSUMPTION_RATE_INCREASE`. -/
def FUEL_CONSUMPTION_RATE_INCREASE : ℚ := 0.07

/-- `APPROX_FUEL_PRICE_RUB`. -/
def APPROX_FUEL_PRICE_RUB : ℚ := 76

/-- `FUEL_CONSUMPTION_RATE_DATES`, the literal step-change dates. -/
def FUEL_CONSUMPTION_RATE_DATES : List JsStr :=
  ["2025-12-31".toList, "2026-01-31".toList, "2026-02-28".toList, "2026-03-31".toList]

/-- `getFuelConsumptionRate` from `fuelSection.tsx`. -/
def getFuelConsumptionRate (date : JsStr) : ℚ :=
  let normalizedDate := normalizeDate date
  if normalizedDate ≠ [] ∧ normalizedDate ∈ FUEL_CONSUMPTION_RATE_DATES then
    FUEL_CONSUMPTION_RATE * (1 + FUEL_CONSUMPTION_RATE_INCREASE)
  else
    FUEL_CONSUMPTION_RATE

/-- The `recordType` union of `FuelRecord` in `types.ts`. -/
inductive RecordType
  | fuel
  | adjustment
deriving DecidableEq, Repr

/-- The `adjustmentKind` union of `FuelRecord` in `types.ts`. -/
inductive AdjustmentKind
  | compensation_payment
  | debt_deduction
deriving DecidableEq, Repr

/-- `FuelRecord` from `types.ts` (the fields the engine reads; numeric fields are
exact rationals, optional fields are `Option`). -/
structure FuelRecord where
  recordType : Option RecordType := none
  adjustmentKind : Option AdjustmentKind := none
  monthKey : Option JsStr := none
  amount : Option ℚ := none
  date : JsStr := []
  mileage : Option ℚ := none
  liters : Option ℚ := none
  fuelCost : Option ℚ := none
deriving DecidableEq, Repr

/-- `isAdjustmentRecord` from `fuelSection.tsx`. -/
def isAdjustmentRecord (record : FuelRecord) : Bool :=
  record.recordType = some RecordType.adjustment

/-- `isFuelRecord` from `fuelSection.tsx`. -/
def isFuelRecord (record : FuelRecord) : Bool :=
  !isAdjustmentRecord record

/-- The month-key pattern of the source (four digits, a dash, two digits). -/
def isMonthKeyShape : JsStr → Bool
  | [a, b, c, d, e, f, g] =>
    a.isDigit && b.isDigit && c.isDigit && d.isDigit && e = '-' && f.isDigit && g.isDigit
  | _ => false

/-- `getRecordMonthKey` from `fuelSection.tsx`: a stored `monthKey` matching the
month-key pattern wins, otherwise the first 7 characters of the normalized date. -/
def getRecordMonthKey (record : FuelRecord) : JsStr :=
  match record.monthKey with
  | some mk =>
    if mk ≠ [] ∧ isMonthKeyShape mk then mk else (normalizeDate record.date).take 7
  | none => (normalizeDate record.date).take 7

/-- Stable insertion of an element into a list relative to a boolean "goes before or
with" relation. -/
def insertLe {α : Type} (le : α → α → Bool) (a : α) : List α → List α
  | [] => [a]
  | b :: l => if le a b then a :: b :: l else b :: insertLe le a l

/-- Stable sort (insertion sort) embedding `Array.prototype.sort` with a comparator. -/
def sortByLe {α : Type} (le : α → α → Bool) : List α → List α
  | [] => []
  | a :: l => insertLe le a (sortByLe le l)

/-- JS `<` on strings: lexicographic comparison of code points. -/
def jsStrLt : JsStr → JsStr → Bool
  | [], [] => false
  | [], _ :: _ => true
  | _ :: _, [] => false
  | a :: as, b :: bs =>
    if a.toNat < b.toNat then true
    else if b.toNat < a.toNat then false
    else jsStrLt as bs

/-- The "less or equal" relation induced by lexicographic comparison; on the
digit-and-dash sort keys used below, `localeCompare` agrees with it. -/
def jsStrLe (a b : JsStr) : Bool := !jsStrLt b a

/-- The `orderedFuelItems` comparator of `fuelSummary` (empty dates first, then
ascending date), read as "`a` may come before `b`". -/
def fuelItemLe (a b : FuelRecord) : Bool :=
  if a.date = [] then true
  else if b.date = [] then false
  else jsStrLt a.date b.date

/-- The per-month accumulator of the `monthlyMap` grouping in `fuelSummary`. -/
structure MonthBucket where
  key : JsStr
  sortKey : JsStr
  label : JsStr
  totalMileage : ℚ
  totalLiters : ℚ
  fuelNorm : ℚ
  fuelCost : ℚ
deriving DecidableEq, Repr

/-- `monthInfo?.key ?? 'unknown'`. -/
def entryKey (item : FuelRecord) : JsStr :=
  match getMonthInfo item.date with
  | some info => info.key
  | none => "unknown".toList

/-- `monthInfo?.key ?? '9999-99'`. -/
def entrySortKey (item : FuelRecord) : JsStr :=
  match getMonthInfo item.date with
  | some info => info.key
  | none => "9999-99".toList

/-- `monthInfo?.label ?? 'Без даты'`. -/
def entryLabel (item : FuelRecord) : JsStr :=
  match getMonthInfo item.date with
  | some info => info.label
  | none => "Без даты".toList

/-- The per-entry fuel norm of `fuelSummary`:
`mileage > 0 ? (mileage * getFuelConsumptionRate(item.date)) / 100 : 0`
with `mileage = item.mileage ?? 0`. -/
def entryFuelNorm (item : FuelRecord) : ℚ :=
  if 0 < item.mileage.getD 0 then
    item.mileage.getD 0 * getFuelConsumptionRate item.date / 100
  else 0

/-- The freshly created month accumulator (`?? { ..., 0, 0, 0, 0 }`). -/
def freshBucket (item : FuelRecord) : MonthBucket :=
  ⟨entryKey item, entrySortKey item, entryLabel item, 0, 0, 0, 0⟩

/-- One `forEach` step of the grouping: accumulate an entry's figures. -/
def addToBucket (b : MonthBucket) (item : FuelRecord) : MonthBucket :=
  { b with
    totalMileage := b.totalMileage + item.mileage.getD 0
    totalLiters := b.totalLiters + item.liters.getD 0
    fuelNorm := b.fuelNorm + entryFuelNorm item
    fuelCost := b.fuelCost + item.fuelCost.getD 0 }

/-- `monthlyMap.get(key) ?? fresh` followed by `monthlyMap.set(key, updated)`,
on the association-list embedding of the insertion-ordered `Map`. -/
def upsertBucket : List MonthBucket → FuelRecord → List MonthBucket
  | [], item => [addToBucket (freshBucket item) item]
  | b :: rest, item =>
    if b.key = entryKey item then addToBucket b item :: rest
    else b :: upsertBucket rest item

/-- The whole `orderedFuelItems.forEach` grouping loop. -/
def buildMonthBuckets (items : List FuelRecord) : List MonthBucket :=
  items.foldl upsertBucket []

/-- The month sort of `fuelSummary`: ascending `sortKey.localeCompare`. -/
def monthBucketLe (a b : MonthBucket) : Bool := jsStrLe a.sortKey b.sortKey

/-- `reduce((acc, item) => acc + f(item), 0)`. -/
def sumBy {α : Type} (f : α → ℚ) (l : List α) : ℚ :=
  l.foldl (fun acc item => acc + f item) 0

/-- The per-item effective debt deduction amount of `fuelSummary`: the explicit
`amount` when recorded, otherwise `liters × APPROX_FUEL_PRICE_RUB`. -/
def effectiveDebtItemAmount (item : FuelRecord) : ℚ :=
  match item.amount with
  | some v => v
  | none => item.liters.getD 0 * APPROX_FUEL_PRICE_RUB

/-- One month of the computed summary (`fuelSummary`'s `monthly` array elements;
display-formatted label strings excepted). -/
structure MonthRow where
  key : JsStr
  sortKey : JsStr
  label : JsStr
  totalMileage : ℚ
  totalLiters : ℚ
  fuelNorm : ℚ
  fuelCost : ℚ
  fuelDiff : ℚ
  approvedRate : ℚ
  compensation : ℚ
  paidCompensation : ℚ
  debtDeductionAmount : ℚ
  debtDeductionLiters : ℚ
  effectiveAppliedCompensation : ℚ
  remainingCompensation : ℚ
  isCompensationClosed : Bool
  compensationStatusLabel : JsStr
deriving DecidableEq, Repr

/-- `monthAdjustments` of the ledger step: the adjustments whose month key is the
month's key. -/
def monthAdjustmentsFor (adjustmentRecords : List FuelRecord) (k : JsStr) :
    List FuelRecord :=
  adjustmentRecords.filter (fun item => getRecordMonthKey item = k)

/-- `paidCompensation` of the ledger step. -/
def monthPaid (adjustmentRecords : List FuelRecord) (k : JsStr) : ℚ :=
  sumBy (fun item => item.amount.getD 0)
    ((monthAdjustmentsFor adjustmentRecords k).filter
      (fun item => item.adjustmentKind = some AdjustmentKind.compensation_payment))

/-- `monthDebtAdjustments` of the ledger step. -/
def monthDebtItems (adjustmentRecords : List FuelRecord) (k : JsStr) : List FuelRecord :=
  (monthAdjustmentsFor adjustmentRecords k).filter
    (fun item => item.adjustmentKind = some AdjustmentKind.debt_deduction)

/-- `effectiveDebtDeductionAmount` of the ledger step. -/
def monthEffectiveDebt (adjustmentRecords : List FuelRecord) (k : JsStr) : ℚ :=
  sumBy effectiveDebtItemAmount (monthDebtItems adjustmentRecords k)

/-- The `.map(month => ...)` ledger step of `fuelSummary`, one month at a time. -/
def mkMonthRow (adjustmentRecords : List FuelRecord) (month : MonthBucket) : MonthRow :=
  let paidCompensation := monthPaid adjustmentRecords month.key
  let monthDebtAdjustments := monthDebtItems adjustmentRecords month.key
  let debtDeductionAmount := sumBy (fun item => item.amount.getD 0) monthDebtAdjustments
  let debtDeductionLiters := sumBy (fun item => item.liters.getD 0) monthDebtAdjustments
  let fuelDiff := month.fuelNorm - month.totalLiters
  let approvedRate :=
    if 0 < month.totalMileage then month.fuelNorm / month.totalMileage * 100 else 0
  let compensation := month.totalMileage * 5
  let effectiveDebtDeductionAmount := monthEffectiveDebt adjustmentRecords month.key
  let effectiveAppliedCompensation := paidCompensation + effectiveDebtDeductionAmount
  let remainingCompensation := compensation - effectiveAppliedCompensation
  let isCompensationClosed :=
    decide (compensation ≤ effectiveAppliedCompensation ∧ 0 < compensation)
  let compensationStatusLabel :=
    if isCompensationClosed then "Закрыто".toList
    else if 0 < effectiveAppliedCompensation then "Частично закрыто".toList
    else "Открыто".toList
  ⟨month.key, month.sortKey, month.label,
   month.totalMileage, month.totalLiters, month.fuelNorm, month.fuelCost,
   fuelDiff, approvedRate, compensation, paidCompensation,
   debtDeductionAmount, debtDeductionLiters,
   effectiveAppliedCompensation, remainingCompensation,
   isCompensationClosed, compensationStatusLabel⟩

/-- The `totals` object returned by `fuelSummary` (its numeric fields). -/
structure FuelSummaryTotals where
  totalMileage : ℚ
  totalLiters : ℚ
  fuelNorm : ℚ
  totalFuelCost : ℚ
  totalCompensation : ℚ
  totalPaidCompensation : ℚ
  totalDebtDeductionAmount : ℚ
  approxDebtDeductionAmount : ℚ
  totalDebtDeductionLiters : ℚ
  netCompensation : ℚ
  fuelDiff : ℚ
  adjustedFuelDiff : ℚ
deriving DecidableEq, Repr

/-- The structure returned by the `fuelSummary` memo. -/
structure FuelSummary where
  monthly : List MonthRow
  totals : FuelSummaryTotals
  hasData : Bool
deriving DecidableEq, Repr

/-- The `fuelOnlyRecords` memo: records that are not adjustments. -/
def fuelOnlyRecordsOf (fuelRecords : List FuelRecord) : List FuelRecord :=
  fuelRecords.filter (fun r => isFuelRecord r)

/-- The `adjustmentRecords` memo: adjustment records. -/
def adjustmentRecordsOf (fuelRecords : List FuelRecord) : List FuelRecord :=
  fuelRecords.filter (fun r => isAdjustmentRecord r)

/-- The sorted month groups of `fuelSummary`: fuel entries sorted by date, grouped
by month key, the groups sorted ascending by sort key. -/
def bucketsOf (fuelRecords : List FuelRecord) : List MonthBucket :=
  sortByLe monthBucketLe
    (buildMonthBuckets (sortByLe fuelItemLe (fuelOnlyRecordsOf fuelRecords)))

/-- The `monthly` array of `fuelSummary`: the sorted month groups run through the
ledger step. -/
def monthlyOf (fuelRecords : List FuelRecord) : List MonthRow :=
  (bucketsOf fuelRecords).map (mkMonthRow (adjustmentRecordsOf fuelRecords))

/-- The `compensation_payment` adjustments of the whole period. -/
def paymentAdjustmentsOf (fuelRecords : List FuelRecord) : List FuelRecord :=
  (adjustmentRecordsOf fuelRecords).filter
    (fun item => item.adjustmentKind = some AdjustmentKind.compensation_payment)

/-- The `debt_deduction` adjustments of the whole period (`debtAdjustments`). -/
def debtAdjustmentsOf (fuelRecords : List FuelRecord) : List FuelRecord :=
  (adjustmentRecordsOf fuelRecords).filter
    (fun item => item.adjustmentKind = some AdjustmentKind.debt_deduction)

/-- The `fuelSummary` computation of `fuelSection.tsx` (the configured path: the
engine as a pure function of the stored records). -/
def fuelSummary (fuelRecords : List FuelRecord) : FuelSummary :=
  let adjustmentRecords := adjustmentRecordsOf fuelRecords
  let monthly := monthlyOf fuelRecords
  let totalMileage := sumBy (fun m => m.totalMileage) monthly
  let totalLiters := sumBy (fun m => m.totalLiters) monthly
  let fuelNorm := sumBy (fun m => m.fuelNorm) monthly
  let totalFuelCost := sumBy (fun m => m.fuelCost) monthly
  let totalCompensation := sumBy (fun m => m.compensation) monthly
  let totalPaidCompensation :=
    sumBy (fun item => item.amount.getD 0) (paymentAdjustmentsOf fuelRecords)
  let debtAdjustments := debtAdjustmentsOf fuelRecords
  let totalDebtDeductionAmount := sumBy (fun item => item.amount.getD 0) debtAdjustments
  let totalDebtDeductionLiters := sumBy (fun item => item.liters.getD 0) debtAdjustments
  let approxDebtDeductionAmount := totalDebtDeductionLiters * APPROX_FUEL_PRICE_RUB
  let effectiveDebtDeductionAmount := sumBy effectiveDebtItemAmount debtAdjustments
  let netCompensation :=
    totalCompensation - totalPaidCompensation - effectiveDebtDeductionAmount
  let fuelDiff := fuelNorm - totalLiters
  let adjustedFuelDiff := fuelDiff + totalDebtDeductionLiters
  ⟨monthly,
   ⟨totalMileage, totalLiters, fuelNorm, totalFuelCost, totalCompensation,
    totalPaidCompensation, totalDebtDeductionAmount, approxDebtDeductionAmount,
    totalDebtDeductionLiters, netCompensation, fuelDiff, adjustedFuelDiff⟩,
   decide (monthly ≠ [] ∨ adjustmentRecords ≠ [])⟩

/-! ## The write boundary: `validateFuelRecord` of the fuel API module -/

/-- JS numbers at the write boundary, where the code tests `Number.isNaN`:
either NaN or an exact value. -/
inductive JsNum
  | nan
  | num (q : ℚ)
deriving DecidableEq, Repr

/-- `Number.isNaN(x) || x < 0` on a present numeric field. -/
def jsNumBad : JsNum → Bool
  | JsNum.nan => true
  | JsNum.num q => decide (q < 0)

/-- The record shape handled by the fuel API module (the output of its
`normalizeFuelRecord`): the engine's fields plus `carryoverDebtRub`, with
numeric fields possibly NaN. -/
structure ApiFuelRecord where
  recordType : Option RecordType := none
  adjustmentKind : Option AdjustmentKind := none
  monthKey : Option JsStr := none
  amount : Option JsNum := none
  carryoverDebtRub : Option JsNum := none
  date : JsStr := []
  mileage : Option JsNum := none
  liters : Option JsNum := none
  fuelCost : Option JsNum := none
deriving DecidableEq, Repr

/-- `validateFuelRecord` from the fuel API module: the sequence of `throw`s at the
entry-creation boundary, as an `Except` value (first failing check wins). -/
def validateFuelRecord (record : ApiFuelRecord) : Except JsStr Unit :=
  let recordType :=
    if record.recordType = some RecordType.adjustment then RecordType.adjustment
    else RecordType.fuel
  let adjustmentKind := record.adjustmentKind
  let mileage := record.mileage
  let liters := record.liters
  let fuelCost := record.fuelCost
  let amount := record.amount
  let monthKey := record.monthKey.map jsTrim
  let carryoverDebtRub := record.carryoverDebtRub
  if record.date = [] then
    Except.error
      (if recordType = RecordType.adjustment then "Укажите дату корректировки.".toList
       else "Укажите дату записи топлива.".toList)
  else if recordType = RecordType.fuel then
    if mileage = none ∧ liters = none ∧ fuelCost = none then
      Except.error "Укажите пробег, бензин или стоимость перед отправкой.".toList
    else if mileage.elim false jsNumBad then
      Except.error "Некорректное значение пробега.".toList
    else if liters.elim false jsNumBad then
      Except.error "Некорректное значение количества топлива.".toList
    else if fuelCost.elim false jsNumBad then
      Except.error "Некорректное значение суммы заправки.".toList
    else Except.ok ()
  else if adjustmentKind ≠ some AdjustmentKind.compensation_payment ∧
      adjustmentKind ≠ some AdjustmentKind.debt_deduction then
    Except.error "Укажите тип корректировки.".toList
  else if monthKey.elim false (fun mk => mk ≠ [] ∧ isMonthKeyShape mk = false) then
    Except.error "Некорректный месяц корректировки.".toList
  else if amount.elim false jsNumBad then
    Except.error "Некорректная сумма корректировки.".toList
  else if carryoverDebtRub.elim false jsNumBad then
    Except.error "Некорректный остаток долга.".toList
  else if liters.elim false jsNumBad then
    Except.error "Некорректное значение литров в корректировке.".toList
  else if adjustmentKind = some AdjustmentKind.compensation_payment ∧ amount = none then
    Except.error "Для выплаты укажите сумму.".toList
  else if adjustmentKind = some AdjustmentKind.debt_deduction ∧ amount = none ∧
      liters = none then
    Except.error "Для вычета долга укажите сумму или литры.".toList
  else if adjustmentKind ≠ some AdjustmentKind.debt_deduction ∧ carryoverDebtRub ≠ none then
    Except.error "Остаток долга доступен только для вычета долга.".toList
  else Except.ok ()

/-- The error condition as the specification claim enumerates it (written from the
claim's words, to be compared with the source's `validateFuelRecord`): a fuel record
with none of distance/liters/cost, any negative or non-numeric numeric field, a
malformed `monthKey`, a `compensation_payment` without an amount, or a
`debt_deduction` with neither amount nor liters. -/
def specClaimedErrorCondition (r : ApiFuelRecord) : Bool :=
  let isAdj := r.recordType = some RecordType.adjustment
  let badNum := fun (x : Option JsNum) => x.elim false jsNumBad
  (!isAdj && r.mileage.isNone && r.liters.isNone && r.fuelCost.isNone)
  || badNum r.mileage || badNum r.liters || badNum r.fuelCost
  || badNum r.amount || badNum r.carryoverDebtRub
  || r.monthKey.elim false (fun mk => !isMonthKeyShape mk)
  || (decide (r.adjustmentKind = some AdjustmentKind.compensation_payment) &&
      r.amount.isNone)
  || (decide (r.adjustmentKind = some AdjustmentKind.debt_deduction) &&
      r.amount.isNone && r.liters.isNone)

/-- The error condition actually enforced by `validateFuelRecord` (the amended
claim), written as one declarative disjunction per record kind, with the date,
adjustment-kind and carry-over requirements included. -/
def codeErrorCondition (r : ApiFuelRecord) : Prop :=
  r.date = [] ∨
  (if r.recordType = some RecordType.adjustment then
    (r.adjustmentKind ≠ some AdjustmentKind.compensation_payment ∧
      r.adjustmentKind ≠ some AdjustmentKind.debt_deduction) ∨
    ((r.monthKey.map jsTrim).elim false
        (fun mk => mk ≠ [] ∧ isMonthKeyShape mk = false) ∨
      (r.amount.elim false jsNumBad = true ∨
        (r.carryoverDebtRub.elim false jsNumBad = true ∨
          (r.liters.elim false jsNumBad = true ∨
            ((r.adjustmentKind = some AdjustmentKind.compensation_payment ∧
                r.amount = none) ∨
              ((r.adjustmentKind = some AdjustmentKind.debt_deduction ∧
                  r.amount = none ∧ r.liters = none) ∨
                (r.adjustmentKind ≠ some AdjustmentKind.debt_deduction ∧
                  r.carryoverDebtRub ≠ none)))))))
  else
    (r.mileage = none ∧ r.liters = none ∧ r.fuelCost = none) ∨
    (r.mileage.elim false jsNumBad = true ∨
      (r.liters.elim false jsNumBad = true ∨
        r.fuelCost.elim false jsNumBad = true)))

/-! ## Concrete sample records (used by counterexamples and witnesses) -/

/-- A fuel entry: 2025-06-15, 1000 km, 80 l (the spec's concrete scenario). -/
def fuelJune : FuelRecord :=
  { date := "2025-06-15".toList, mileage := some 1000, liters := some 80 }

/-- A fuel entry with fuel but no distance (pure refuel), June 2025. -/
def fuelJuneRefuel : FuelRecord :=
  { date := "2025-06-10".toList, liters := some 50 }

/-- A second June 2025 fuel entry: 500 km, 30 l. -/
def fuelJuneSecond : FuelRecord :=
  { date := "2025-06-20".toList, mileage := some 500, liters := some 30 }

/-- A fuel entry dated on the 2025-12-31 step date. -/
def fuelDec : FuelRecord :=
  { date := "2025-12-31".toList, mileage := some 1000, liters := some 80 }

/-- A fuel entry with an unparseable date. -/
def fuelNoDate : FuelRecord :=
  { date := "garbage".toList, mileage := some 100, liters := some 5 }

/-- A compensation payment of 5000 for June 2025. -/
def payJune5000 : FuelRecord :=
  { recordType := some RecordType.adjustment
    adjustmentKind := some AdjustmentKind.compensation_payment
    monthKey := some "2025-06".toList
    amount := some 5000 }

/-- A compensation payment of 100 for June 2025. -/
def payJune100 : FuelRecord :=
  { recordType := some RecordType.adjustment
    adjustmentKind := some AdjustmentKind.compensation_payment
    monthKey := some "2025-06".toList
    amount := some 100 }

/-- A compensation payment of 100 for July 2025 (a month with no fuel entry). -/
def payJuly100 : FuelRecord :=
  { recordType := some RecordType.adjustment
    adjustmentKind := some AdjustmentKind.compensation_payment
    monthKey := some "2025-07".toList
    amount := some 100 }

/-- A debt deduction of 10 liters, no amount, for June 2025. -/
def dedJune10l : FuelRecord :=
  { recordType := some RecordType.adjustment
    adjustmentKind := some AdjustmentKind.debt_deduction
    monthKey := some "2025-06".toList
    liters := some 10 }

/-- A debt deduction with explicit amount 500 for June 2025. -/
def dedJune500 : FuelRecord :=
  { recordType := some RecordType.adjustment
    adjustmentKind := some AdjustmentKind.debt_deduction
    monthKey := some "2025-06".toList
    amount := some 500 }

/-- A fuel record with a mileage but an empty date (write-boundary sample). -/
def apiFuelNoDate : ApiFuelRecord :=
  { mileage := some (JsNum.num 5) }

/-- A well-formed `YYYY-MM-DD` date shape: ten characters, digits in the year,
month and day positions, dashes between, and a month value from 01 to 12 — the
date format of the data model. -/
def isoDateShape : JsStr → Bool
  | [y1, y2, y3, y4, h1, m1, m2, h2, d1, d2] =>
    y1.isDigit && y2.isDigit && y3.isDigit && y4.isDigit && h1 = '-' &&
    m1.isDigit && m2.isDigit && h2 = '-' && d1.isDigit && d2.isDigit &&
    decide (1 ≤ 10 * (m1.toNat - 48) + (m2.toNat - 48)) &&
    decide (10 * (m1.toNat - 48) + (m2.toNat - 48) ≤ 12)
  | _ => false

/-- The June 2025 ledger row computed for `[fuelJune, payJune5000]`. -/
def juneClosedRow : MonthRow :=
  { key := "2025-06".toList, sortKey := "2025-06".toList, label := "Июнь 2025".toList,
    totalMileage := 1000, totalLiters := 80, fuelNorm := 94, fuelCost := 0,
    fuelDiff := 14, approvedRate := 47/5, compensation := 5000,
    paidCompensation := 5000, debtDeductionAmount := 0, debtDeductionLiters := 0,
    effectiveAppliedCompensation := 5000, remainingCompensation := 0,
    isCompensationClosed := true, compensationStatusLabel := "Закрыто".toList }

/-- The June 2025 ledger row computed for `[fuelJuneRefuel, payJune100]`: a month
with zero accrued compensation but a positive applied payment. -/
def juneZeroAccrualRow : MonthRow :=
  { key := "2025-06".toList, sortKey := "2025-06".toList, label := "Июнь 2025".toList,
    totalMileage := 0, totalLiters := 50, fuelNorm := 0, fuelCost := 0,
    fuelDiff := -50, approvedRate := 0, compensation := 0,
    paidCompensation := 100, debtDeductionAmount := 0, debtDeductionLiters := 0,
    effectiveAppliedCompensation := 100, remainingCompensation := -100,
    isCompensationClosed := false,
    compensationStatusLabel := "Частично закрыто".toList }

end FuelSpec

namespace FuelSpec

/-! ## Toolkit: sums -/

theorem foldl_add_shift {α : Type} (f : α → ℚ) (l : List α) :
    ∀ init : ℚ, l.foldl (fun acc item => acc + f item) init = init + sumBy f l := by
  induction l with
  | nil => intro init; simp [sumBy]
  | cons a t ih =>
    intro init
    have h1 := ih (init + f a)
    have h2 := ih (0 + f a)
    show List.foldl (fun acc item => acc + f item) (init + f a) t = _
    rw [h1]
    show _ = init + List.foldl (fun acc item => acc + f item) (0 + f a) t
    rw [h2]
    ring

theorem sumBy_nil {α : Type} (f : α → ℚ) : sumBy f [] = 0 := rfl

theorem sumBy_cons {α : Type} (f : α → ℚ) (a : α) (l : List α) :
    sumBy f (a :: l) = f a + sumBy f l := by
  show List.foldl (fun acc item => acc + f item) (0 + f a) l = f a + sumBy f l
  rw [foldl_add_shift f l (0 + f a)]
  ring

theorem sumBy_append {α : Type} (f : α → ℚ) (l₁ l₂ : List α) :
    sumBy f (l₁ ++ l₂) = sumBy f l₁ + sumBy f l₂ := by
  induction l₁ with
  | nil => simp [sumBy_nil, sumBy]
  | cons a t ih =>
    simp only [List.cons_append, sumBy_cons, ih]
    ring

theorem sumBy_map {α β : Type} (g : α → β) (f : β → ℚ) (l : List α) :
    sumBy f (l.map g) = sumBy (fun a => f (g a)) l := by
  induction l with
  | nil => rfl
  | cons a t ih => simp [sumBy_cons, ih]

theorem sumBy_eq_sum_map {α : Type} (f : α → ℚ) (l : List α) :
    sumBy f l = (l.map f).sum := by
  induction l with
  | nil => rfl
  | cons a t ih => simp [sumBy_cons, ih]

theorem sumBy_perm {α : Type} (f : α → ℚ) {l₁ l₂ : List α} (h : l₁.Perm l₂) :
    sumBy f l₁ = sumBy f l₂ := by
  rw [sumBy_eq_sum_map, sumBy_eq_sum_map]
  exact (h.map f).sum_eq

theorem sumBy_congr {α : Type} {f g : α → ℚ} {l : List α}
    (h : ∀ a ∈ l, f a = g a) : sumBy f l = sumBy g l := by
  induction l with
  | nil => rfl
  | cons a t ih =>
    rw [sumBy_cons, sumBy_cons, h a (List.mem_cons_self a t),
      ih (fun x hx => h x (List.mem_cons_of_mem a hx))]

theorem sumBy_sub {α : Type} (f g : α → ℚ) (l : List α) :
    sumBy (fun a => f a - g a) l = sumBy f l - sumBy g l := by
  induction l with
  | nil => simp [sumBy_nil]
  | cons a t ih => simp only [sumBy_cons, ih]; ring

/-! ## Toolkit: the stable sort -/

theorem insertLe_perm {α : Type} (le : α → α → Bool) (a : α) (l : List α) :
    (insertLe le a l).Perm (a :: l) := by
  induction l with
  | nil => simp [insertLe]
  | cons b t ih =>
    by_cases h : le a b = true
    · simp [insertLe, h]
    · simp only [insertLe, if_neg h]
      exact (ih.cons b).trans (List.Perm.swap a b t)

theorem sortByLe_perm {α : Type} (le : α → α → Bool) (l : List α) :
    (sortByLe le l).Perm l := by
  induction l with
  | nil => simp [sortByLe]
  | cons a t ih =>
    exact (insertLe_perm le a (sortByLe le t)).trans (ih.cons a)

theorem insertLe_pairwise {α : Type} (le : α → α → Bool)
    (htot : ∀ x y, le x y = true ∨ le y x = true)
    (htrans : ∀ x y z, le x y = true → le y z = true → le x z = true)
    (a : α) (l : List α) (h : l.Pairwise (fun x y => le x y = true)) :
    (insertLe le a l).Pairwise (fun x y => le x y = true) := by
  induction l with
  | nil => simp [insertLe]
  | cons b t ih =>
    rcases List.pairwise_cons.mp h with ⟨hb, ht⟩
    by_cases hab : le a b = true
    · simp only [insertLe, if_pos hab]
      refine List.pairwise_cons.mpr ⟨?_, h⟩
      intro x hx
      rcases List.mem_cons.mp hx with rfl | hx
      · exact hab
      · exact htrans a b x hab (hb x hx)
    · have hba : le b a = true := (htot a b).resolve_left hab
      simp only [insertLe, if_neg hab]
      refine List.pairwise_cons.mpr ⟨?_, ih ht⟩
      intro x hx
      rcases List.mem_cons.mp ((insertLe_perm le a t).mem_iff.mp hx) with rfl | hx
      · exact hba
      · exact hb x hx

theorem sortByLe_pairwise {α : Type} (le : α → α → Bool)
    (htot : ∀ x y, le x y = true ∨ le y x = true)
    (htrans : ∀ x y z, le x y = true → le y z = true → le x z = true)
    (l : List α) :
    (sortByLe le l).Pairwise (fun x y => le x y = true) := by
  induction l with
  | nil => simp [sortByLe]
  | cons a t ih => exact insertLe_pairwise le htot htrans a (sortByLe le t) ih

/-! ## Toolkit: the lexicographic string order -/

theorem jsStrLt_asymm : ∀ a b : JsStr, jsStrLt a b = true → jsStrLt b a = false := by
  intro a
  induction a with
  | nil =>
    intro b h
    cases b with
    | nil => simp [jsStrLt] at h
    | cons c cs => simp [jsStrLt]
  | cons a0 as ih =>
    intro b h
    cases b with
    | nil => simp [jsStrLt] at h
    | cons b0 bs =>
      simp only [jsStrLt] at h ⊢
      rcases Nat.lt_trichotomy a0.toNat b0.toNat with h1 | h1 | h1
      · simp [Nat.lt_asymm h1, h1]
      · simp only [h1, Nat.lt_irrefl, if_false, if_neg] at h ⊢
        exact ih bs h
      · simp [h1, Nat.lt_asymm h1] at h

theorem jsStrLt_negtrans :
    ∀ c a b : JsStr, jsStrLt c a = true → jsStrLt c b = true ∨ jsStrLt b a = true := by
  intro c
  induction c with
  | nil =>
    intro a b h
    cases a with
    | nil => simp [jsStrLt] at h
    | cons a0 as =>
      cases b with
      | nil => right; simp [jsStrLt]
      | cons b0 bs => left; simp [jsStrLt]
  | cons c0 cs ih =>
    intro a b h
    cases a with
    | nil => simp [jsStrLt] at h
    | cons a0 as =>
      cases b with
      | nil => right; simp [jsStrLt]
      | cons b0 bs =>
        rcases Nat.lt_trichotomy c0.toNat a0.toNat with h1 | h1 | h1
        · rcases Nat.lt_trichotomy c0.toNat b0.toNat with h2 | h2 | h2
          · left; simp [jsStrLt, h2]
          · right
            have hba : b0.toNat < a0.toNat := by omega
            simp [jsStrLt, hba]
          · right
            have hba : b0.toNat < a0.toNat := by omega
            simp [jsStrLt, hba]
        · simp only [jsStrLt, h1, Nat.lt_irrefl, if_false, if_neg] at h
          rcases Nat.lt_trichotomy c0.toNat b0.toNat with h2 | h2 | h2
          · left; simp [jsStrLt, h2]
          · rcases ih as bs h with hl | hr
            · left
              have e1 : ¬ c0.toNat < b0.toNat := by omega
              have e2 : ¬ b0.toNat < c0.toNat := by omega
              simp [jsStrLt, e1, e2, hl]
            · right
              have e1 : ¬ b0.toNat < a0.toNat := by omega
              have e2 : ¬ a0.toNat < b0.toNat := by omega
              simp [jsStrLt, e1, e2, hr]
          · right
            have hba : b0.toNat < a0.toNat := by omega
            simp [jsStrLt, hba]
        · have e1 : ¬ c0.toNat < a0.toNat := by omega
          simp [jsStrLt, e1, h1] at h

theorem jsStrLe_iff (a b : JsStr) : jsStrLe a b = true ↔ jsStrLt b a = false := by
  unfold jsStrLe
  cases jsStrLt b a <;> simp

theorem jsStrLe_total (a b : JsStr) : jsStrLe a b = true ∨ jsStrLe b a = true := by
  cases hlt : jsStrLt b a
  · left; exact (jsStrLe_iff a b).mpr hlt
  · right; exact (jsStrLe_iff b a).mpr (jsStrLt_asymm b a hlt)

theorem jsStrLe_trans (a b c : JsStr) (h1 : jsStrLe a b = true) (h2 : jsStrLe b c = true) :
    jsStrLe a c = true := by
  rw [jsStrLe_iff] at h1 h2 ⊢
  cases hca : jsStrLt c a with
  | false => rfl
  | true =>
    rcases jsStrLt_negtrans c a b hca with h | h
    · rw [h2] at h; exact h.symm
    · rw [h1] at h; exact h.symm

/-! ## Toolkit: the monthly grouping -/

theorem addToBucket_key (b : MonthBucket) (i : FuelRecord) :
    (addToBucket b i).key = b.key := rfl

theorem freshBucket_key (i : FuelRecord) : (freshBucket i).key = entryKey i := rfl

theorem upsertBucket_keys (bs : List MonthBucket) (i : FuelRecord) :
    (upsertBucket bs i).map MonthBucket.key =
      if entryKey i ∈ bs.map MonthBucket.key then bs.map MonthBucket.key
      else bs.map MonthBucket.key ++ [entryKey i] := by
  induction bs with
  | nil => simp [upsertBucket, addToBucket_key, freshBucket_key]
  | cons b rest ih =>
    by_cases hb : b.key = entryKey i
    · simp [upsertBucket, hb, addToBucket_key]
    · simp only [upsertBucket, if_neg hb, List.map_cons, ih]
      by_cases hmem : entryKey i ∈ rest.map MonthBucket.key
      · simp [hmem, Ne.symm hb]
      · simp [hmem, Ne.symm hb]

theorem upsertBucket_mem_keys (bs : List MonthBucket) (i : FuelRecord) (k : JsStr) :
    (k ∈ (upsertBucket bs i).map MonthBucket.key) ↔
      (k ∈ bs.map MonthBucket.key ∨ k = entryKey i) := by
  rw [upsertBucket_keys]
  by_cases hmem : entryKey i ∈ bs.map MonthBucket.key
  · simp only [if_pos hmem]
    constructor
    · exact fun h => Or.inl h
    · rintro (h | rfl)
      · exact h
      · exact hmem
  · rw [if_neg hmem]
    simp [List.mem_append]

theorem upsertBucket_keys_nodup (bs : List MonthBucket) (i : FuelRecord)
    (h : (bs.map MonthBucket.key).Nodup) :
    ((upsertBucket bs i).map MonthBucket.key).Nodup := by
  rw [upsertBucket_keys]
  by_cases hmem : entryKey i ∈ bs.map MonthBucket.key
  · simpa [hmem] using h
  · simp [hmem, List.nodup_append, h]

theorem foldl_upsertBucket_keys_nodup (items : List FuelRecord) :
    ∀ acc : List MonthBucket, (acc.map MonthBucket.key).Nodup →
      ((items.foldl upsertBucket acc).map MonthBucket.key).Nodup := by
  induction items with
  | nil => intro acc h; simpa using h
  | cons i t ih =>
    intro acc h
    exact ih (upsertBucket acc i) (upsertBucket_keys_nodup acc i h)

theorem buildMonthBuckets_keys_nodup (items : List FuelRecord) :
    ((buildMonthBuckets items).map MonthBucket.key).Nodup :=
  foldl_upsertBucket_keys_nodup items [] (by simp)

theorem foldl_upsertBucket_mem_keys (items : List FuelRecord) (k : JsStr) :
    ∀ acc : List MonthBucket,
      (k ∈ (items.foldl upsertBucket acc).map MonthBucket.key) ↔
        (k ∈ acc.map MonthBucket.key ∨ k ∈ items.map entryKey) := by
  induction items with
  | nil => intro acc; simp
  | cons i t ih =>
    intro acc
    rw [List.foldl_cons, ih (upsertBucket acc i), upsertBucket_mem_keys]
    simp only [List.map_cons, List.mem_cons]
    tauto

theorem buildMonthBuckets_mem_keys (items : List FuelRecord) (k : JsStr) :
    (k ∈ (buildMonthBuckets items).map MonthBucket.key) ↔ k ∈ items.map entryKey := by
  rw [buildMonthBuckets, foldl_upsertBucket_mem_keys]
  simp

theorem upsertBucket_sumBy (proj : MonthBucket → ℚ) (contrib : FuelRecord → ℚ)
    (hadd : ∀ b i, proj (addToBucket b i) = proj b + contrib i)
    (hfresh : ∀ i, proj (freshBucket i) = 0)
    (bs : List MonthBucket) (i : FuelRecord) :
    sumBy proj (upsertBucket bs i) = sumBy proj bs + contrib i := by
  induction bs with
  | nil => simp [upsertBucket, sumBy_cons, sumBy_nil, hadd, hfresh]
  | cons b rest ih =>
    by_cases hb : b.key = entryKey i
    · simp only [upsertBucket, if_pos hb, sumBy_cons, hadd]
      ring
    · simp only [upsertBucket, if_neg hb, sumBy_cons, ih]
      ring

theorem foldl_upsertBucket_sumBy (proj : MonthBucket → ℚ) (contrib : FuelRecord → ℚ)
    (hadd : ∀ b i, proj (addToBucket b i) = proj b + contrib i)
    (hfresh : ∀ i, proj (freshBucket i) = 0)
    (items : List FuelRecord) :
    ∀ acc : List MonthBucket,
      sumBy proj (items.foldl upsertBucket acc) = sumBy proj acc + sumBy contrib items := by
  induction items with
  | nil => intro acc; simp [sumBy_nil]
  | cons i t ih =>
    intro acc
    rw [List.foldl_cons, ih (upsertBucket acc i),
      upsertBucket_sumBy proj contrib hadd hfresh, sumBy_cons]
    ring

theorem buildMonthBuckets_sumBy (proj : MonthBucket → ℚ) (contrib : FuelRecord → ℚ)
    (hadd : ∀ b i, proj (addToBucket b i) = proj b + contrib i)
    (hfresh : ∀ i, proj (freshBucket i) = 0)
    (items : List FuelRecord) :
    sumBy proj (buildMonthBuckets items) = sumBy contrib items := by
  rw [buildMonthBuckets, foldl_upsertBucket_sumBy proj contrib hadd hfresh items []]
  simp [sumBy_nil]

/-! ## Toolkit: ledger row and summary projections -/

theorem mkMonthRow_key (adjs : List FuelRecord) (b : MonthBucket) :
    (mkMonthRow adjs b).key = b.key := rfl

theorem mkMonthRow_sortKey (adjs : List FuelRecord) (b : MonthBucket) :
    (mkMonthRow adjs b).sortKey = b.sortKey := rfl

theorem mkMonthRow_totalMileage (adjs : List FuelRecord) (b : MonthBucket) :
    (mkMonthRow adjs b).totalMileage = b.totalMileage := rfl

theorem mkMonthRow_totalLiters (adjs : List FuelRecord) (b : MonthBucket) :
    (mkMonthRow adjs b).totalLiters = b.totalLiters := rfl

theorem mkMonthRow_fuelNorm (adjs : List FuelRecord) (b : MonthBucket) :
    (mkMonthRow adjs b).fuelNorm = b.fuelNorm := rfl

theorem mkMonthRow_fuelCost (adjs : List FuelRecord) (b : MonthBucket) :
    (mkMonthRow adjs b).fuelCost = b.fuelCost := rfl

theorem mkMonthRow_compensation (adjs : List FuelRecord) (b : MonthBucket) :
    (mkMonthRow adjs b).compensation = b.totalMileage * 5 := rfl

theorem mkMonthRow_paidCompensation (adjs : List FuelRecord) (b : MonthBucket) :
    (mkMonthRow adjs b).paidCompensation = monthPaid adjs b.key := rfl

theorem mkMonthRow_debtDeductionLiters (adjs : List FuelRecord) (b : MonthBucket) :
    (mkMonthRow adjs b).debtDeductionLiters =
      sumBy (fun item => item.liters.getD 0) (monthDebtItems adjs b.key) := rfl

theorem mkMonthRow_effectiveApplied (adjs : List FuelRecord) (b : MonthBucket) :
    (mkMonthRow adjs b).effectiveAppliedCompensation =
      monthPaid adjs b.key + monthEffectiveDebt adjs b.key := rfl

theorem mkMonthRow_remaining (adjs : List FuelRecord) (b : MonthBucket) :
    (mkMonthRow adjs b).remainingCompensation =
      b.totalMileage * 5 - (monthPaid adjs b.key + monthEffectiveDebt adjs b.key) := rfl

theorem mkMonthRow_isClosed (adjs : List FuelRecord) (b : MonthBucket) :
    (mkMonthRow adjs b).isCompensationClosed =
      decide (b.totalMileage * 5 ≤ monthPaid adjs b.key + monthEffectiveDebt adjs b.key ∧
        0 < b.totalMileage * 5) := rfl

theorem mkMonthRow_statusLabel (adjs : List FuelRecord) (b : MonthBucket) :
    (mkMonthRow adjs b).compensationStatusLabel =
      if (mkMonthRow adjs b).isCompensationClosed then "Закрыто".toList
      else if 0 < monthPaid adjs b.key + monthEffectiveDebt adjs b.key then
        "Частично закрыто".toList
      else "Открыто".toList := rfl

theorem fuelSummary_monthly (rs : List FuelRecord) :
    (fuelSummary rs).monthly = monthlyOf rs := rfl

theorem fuelSummary_totalMileage (rs : List FuelRecord) :
    (fuelSummary rs).totals.totalMileage =
      sumBy (fun m => m.totalMileage) (monthlyOf rs) := rfl

theorem fuelSummary_totalLiters (rs : List FuelRecord) :
    (fuelSummary rs).totals.totalLiters =
      sumBy (fun m => m.totalLiters) (monthlyOf rs) := rfl

theorem fuelSummary_fuelNorm (rs : List FuelRecord) :
    (fuelSummary rs).totals.fuelNorm = sumBy (fun m => m.fuelNorm) (monthlyOf rs) := rfl

theorem fuelSummary_totalFuelCost (rs : List FuelRecord) :
    (fuelSummary rs).totals.totalFuelCost =
      sumBy (fun m => m.fuelCost) (monthlyOf rs) := rfl

theorem fuelSummary_totalCompensation (rs : List FuelRecord) :
    (fuelSummary rs).totals.totalCompensation =
      sumBy (fun m => m.compensation) (monthlyOf rs) := rfl

theorem fuelSummary_totalPaid (rs : List FuelRecord) :
    (fuelSummary rs).totals.totalPaidCompensation =
      sumBy (fun item => item.amount.getD 0) (paymentAdjustmentsOf rs) := rfl

theorem fuelSummary_totalDebtAmount (rs : List FuelRecord) :
    (fuelSummary rs).totals.totalDebtDeductionAmount =
      sumBy (fun item => item.amount.getD 0) (debtAdjustmentsOf rs) := rfl

theorem fuelSummary_totalDebtLiters (rs : List FuelRecord) :
    (fuelSummary rs).totals.totalDebtDeductionLiters =
      sumBy (fun item => item.liters.getD 0) (debtAdjustmentsOf rs) := rfl

theorem fuelSummary_netCompensation (rs : List FuelRecord) :
    (fuelSummary rs).totals.netCompensation =
      sumBy (fun m => m.compensation) (monthlyOf rs) -
        sumBy (fun item => item.amount.getD 0) (paymentAdjustmentsOf rs) -
        sumBy effectiveDebtItemAmount (debtAdjustmentsOf rs) := rfl

theorem fuelSummary_fuelDiff (rs : List FuelRecord) :
    (fuelSummary rs).totals.fuelDiff =
      sumBy (fun m => m.fuelNorm) (monthlyOf rs) -
        sumBy (fun m => m.totalLiters) (monthlyOf rs) := rfl

theorem fuelSummary_adjustedFuelDiff (rs : List FuelRecord) :
    (fuelSummary rs).totals.adjustedFuelDiff =
      (sumBy (fun m => m.fuelNorm) (monthlyOf rs) -
        sumBy (fun m => m.totalLiters) (monthlyOf rs)) +
        sumBy (fun item => item.liters.getD 0) (debtAdjustmentsOf rs) := rfl

theorem monthlyOf_keys (rs : List FuelRecord) :
    (monthlyOf rs).map MonthRow.key = (bucketsOf rs).map MonthBucket.key := by
  rw [monthlyOf, List.map_map]
  rfl

theorem bucketsOf_keys_perm (rs : List FuelRecord) :
    ((bucketsOf rs).map MonthBucket.key).Perm
      ((buildMonthBuckets (sortByLe fuelItemLe (fuelOnlyRecordsOf rs))).map
        MonthBucket.key) :=
  (sortByLe_perm monthBucketLe _).map MonthBucket.key

theorem monthlyOf_keys_nodup (rs : List FuelRecord) :
    ((monthlyOf rs).map MonthRow.key).Nodup := by
  rw [monthlyOf_keys]
  exact (bucketsOf_keys_perm rs).nodup_iff.mpr (buildMonthBuckets_keys_nodup _)

theorem monthlyOf_mem_keys (rs : List FuelRecord) (k : JsStr) :
    (k ∈ (monthlyOf rs).map MonthRow.key) ↔ k ∈ (fuelOnlyRecordsOf rs).map entryKey := by
  rw [monthlyOf_keys]
  rw [(bucketsOf_keys_perm rs).mem_iff, buildMonthBuckets_mem_keys]
  exact ((sortByLe_perm fuelItemLe (fuelOnlyRecordsOf rs)).map entryKey).mem_iff

/-! ## Toolkit: appending one adjustment record -/

theorem fuelOnlyRecordsOf_append_adj (rs : List FuelRecord) (a : FuelRecord)
    (ha : isAdjustmentRecord a = true) :
    fuelOnlyRecordsOf (rs ++ [a]) = fuelOnlyRecordsOf rs := by
  simp [fuelOnlyRecordsOf, List.filter_append, isFuelRecord, ha]

theorem adjustmentRecordsOf_append_adj (rs : List FuelRecord) (a : FuelRecord)
    (ha : isAdjustmentRecord a = true) :
    adjustmentRecordsOf (rs ++ [a]) = adjustmentRecordsOf rs ++ [a] := by
  simp [adjustmentRecordsOf, List.filter_append, ha]

theorem bucketsOf_append_adj (rs : List FuelRecord) (a : FuelRecord)
    (ha : isAdjustmentRecord a = true) :
    bucketsOf (rs ++ [a]) = bucketsOf rs := by
  rw [bucketsOf, bucketsOf, fuelOnlyRecordsOf_append_adj rs a ha]

theorem paymentAdjustmentsOf_append_adj (rs : List FuelRecord) (a : FuelRecord)
    (ha : isAdjustmentRecord a = true) :
    paymentAdjustmentsOf (rs ++ [a]) =
      paymentAdjustmentsOf rs ++
        (if a.adjustmentKind = some AdjustmentKind.compensation_payment then [a]
         else []) := by
  rw [paymentAdjustmentsOf, adjustmentRecordsOf_append_adj rs a ha, List.filter_append,
    paymentAdjustmentsOf]
  congr 1
  by_cases hk : a.adjustmentKind = some AdjustmentKind.compensation_payment
  · simp [hk]
  · simp [hk]

theorem debtAdjustmentsOf_append_adj (rs : List FuelRecord) (a : FuelRecord)
    (ha : isAdjustmentRecord a = true) :
    debtAdjustmentsOf (rs ++ [a]) =
      debtAdjustmentsOf rs ++
        (if a.adjustmentKind = some AdjustmentKind.debt_deduction then [a] else []) := by
  rw [debtAdjustmentsOf, adjustmentRecordsOf_append_adj rs a ha, List.filter_append,
    debtAdjustmentsOf]
  congr 1
  by_cases hk : a.adjustmentKind = some AdjustmentKind.debt_deduction
  · simp [hk]
  · simp [hk]

theorem monthAdjustmentsFor_append (adjs : List FuelRecord) (a : FuelRecord) (k : JsStr) :
    monthAdjustmentsFor (adjs ++ [a]) k =
      monthAdjustmentsFor adjs k ++ (if getRecordMonthKey a = k then [a] else []) := by
  rw [monthAdjustmentsFor, List.filter_append, monthAdjustmentsFor]
  congr 1
  by_cases hk : getRecordMonthKey a = k
  · simp [hk]
  · simp [hk]

theorem monthPaid_append (adjs : List FuelRecord) (a : FuelRecord) (k : JsStr) :
    monthPaid (adjs ++ [a]) k =
      monthPaid adjs k +
        (if getRecordMonthKey a = k ∧
            a.adjustmentKind = some AdjustmentKind.compensation_payment then
          a.amount.getD 0
         else 0) := by
  rw [monthPaid, monthAdjustmentsFor_append, List.filter_append, sumBy_append, monthPaid]
  congr 1
  by_cases h1 : getRecordMonthKey a = k
  · by_cases h2 : a.adjustmentKind = some AdjustmentKind.compensation_payment
    · simp [h1, h2, sumBy_cons, sumBy_nil]
    · simp [h1, h2, sumBy_nil]
  · simp [h1, sumBy_nil]

theorem monthDebtItems_append (adjs : List FuelRecord) (a : FuelRecord) (k : JsStr) :
    monthDebtItems (adjs ++ [a]) k =
      monthDebtItems adjs k ++
        (if getRecordMonthKey a = k ∧
            a.adjustmentKind = some AdjustmentKind.debt_deduction then [a]
         else []) := by
  rw [monthDebtItems, monthAdjustmentsFor_append, List.filter_append, monthDebtItems]
  congr 1
  by_cases h1 : getRecordMonthKey a = k
  · by_cases h2 : a.adjustmentKind = some AdjustmentKind.debt_deduction
    · simp [h1, h2]
    · simp [h1, h2]
  · simp [h1]

theorem monthEffectiveDebt_append (adjs : List FuelRecord) (a : FuelRecord) (k : JsStr) :
    monthEffectiveDebt (adjs ++ [a]) k =
      monthEffectiveDebt adjs k +
        (if getRecordMonthKey a = k ∧
            a.adjustmentKind = some AdjustmentKind.debt_deduction then
          effectiveDebtItemAmount a
         else 0) := by
  rw [monthEffectiveDebt, monthDebtItems_append, sumBy_append, monthEffectiveDebt]
  congr 1
  by_cases h1 : getRecordMonthKey a = k ∧
      a.adjustmentKind = some AdjustmentKind.debt_deduction
  · simp [h1, sumBy_cons, sumBy_nil]
  · simp [h1, sumBy_nil]

theorem mkMonthRow_append_nonmatching (adjs : List FuelRecord) (a : FuelRecord)
    (b : MonthBucket) (hne : getRecordMonthKey a ≠ b.key) :
    mkMonthRow (adjs ++ [a]) b = mkMonthRow adjs b := by
  have hp := monthPaid_append adjs a b.key
  have hd := monthDebtItems_append adjs a b.key
  have he := monthEffectiveDebt_append adjs a b.key
  rw [if_neg (by intro hc; exact hne hc.1)] at hp he
  rw [if_neg (by intro hc; exact hne hc.1)] at hd
  simp only [add_zero, List.append_nil] at hp hd he
  simp only [mkMonthRow, hp, hd, he]

theorem monthlyOf_append_unmatched (rs : List FuelRecord) (a : FuelRecord)
    (ha : isAdjustmentRecord a = true)
    (hk : getRecordMonthKey a ∉ (monthlyOf rs).map MonthRow.key) :
    monthlyOf (rs ++ [a]) = monthlyOf rs := by
  rw [monthlyOf, monthlyOf, bucketsOf_append_adj rs a ha,
    adjustmentRecordsOf_append_adj rs a ha]
  apply List.map_congr_left
  intro b hb
  apply mkMonthRow_append_nonmatching
  intro hcontra
  apply hk
  rw [monthlyOf_keys, hcontra]
  exact List.mem_map_of_mem MonthBucket.key hb

/-! ## Toolkit: summing per-month adjustment sums over distinct month keys -/

theorem sumBy_zero {α : Type} (l : List α) : sumBy (fun _ => (0 : ℚ)) l = 0 := by
  induction l with
  | nil => rfl
  | cons a t ih => rw [sumBy_cons, ih]; ring

theorem sumBy_add {α : Type} (f g : α → ℚ) (l : List α) :
    sumBy (fun a => f a + g a) l = sumBy f l + sumBy g l := by
  induction l with
  | nil => simp [sumBy_nil]
  | cons a t ih => simp only [sumBy_cons, ih]; ring

theorem sumBy_indicator (x : JsStr) (c : ℚ) :
    ∀ keys : List JsStr, keys.Nodup →
      sumBy (fun k => if x = k then c else 0) keys = if x ∈ keys then c else 0 := by
  intro keys
  induction keys with
  | nil => intro _; simp [sumBy_nil]
  | cons k ks ih =>
    intro hnodup
    rw [sumBy_cons]
    by_cases hx : x = k
    · subst hx
      rw [if_pos rfl, if_pos (List.mem_cons_self x ks),
        ih (List.nodup_cons.mp hnodup).2, if_neg (List.nodup_cons.mp hnodup).1]
      ring
    · rw [if_neg hx, ih (List.nodup_cons.mp hnodup).2]
      by_cases hmem : x ∈ ks
      · rw [if_pos hmem, if_pos (List.mem_cons_of_mem k hmem)]
        ring
      · rw [if_neg hmem, if_neg (by simp [hx, hmem])]
        ring

theorem sumBy_key_partition {α : Type} (f : α → ℚ) (key : α → JsStr) :
    ∀ (l : List α) (keys : List JsStr), keys.Nodup → (∀ a ∈ l, key a ∈ keys) →
      sumBy (fun k => sumBy f (l.filter (fun a => key a = k))) keys = sumBy f l := by
  intro l
  induction l with
  | nil =>
    intro keys _ _
    simp only [List.filter_nil, sumBy_nil]
    exact sumBy_zero keys
  | cons a t ih =>
    intro keys hnodup hmem
    have hstep : ∀ k ∈ keys,
        sumBy f ((a :: t).filter (fun b => key b = k)) =
          (if key a = k then f a else 0) + sumBy f (t.filter (fun b => key b = k)) := by
      intro k _
      rw [List.filter_cons]
      by_cases hk : key a = k
      · rw [if_pos (by simp [hk]), sumBy_cons, if_pos hk]
      · rw [if_neg (by simp [hk]), if_neg hk]
        ring
    rw [sumBy_congr hstep, sumBy_add, sumBy_indicator (key a) (f a) keys hnodup,
      if_pos (hmem a (List.mem_cons_self a t)), sumBy_cons,
      ih keys hnodup (fun b hb => hmem b (List.mem_cons_of_mem a hb))]

/-! ## Toolkit: date shapes, sort keys and the unknown bucket -/

theorem digit_not_space (c : Char) (h : c.isDigit = true) : isJsSpace c = false := by
  cases hsp : isJsSpace c
  · rfl
  · exfalso
    have hc := hsp
    simp only [isJsSpace, Bool.or_eq_true, decide_eq_true_eq] at hc
    rcases hc with ((rfl | rfl) | rfl) | rfl <;> exact absurd h (by decide)

theorem digit_ne_dash (c : Char) (h : c.isDigit = true) : ¬ c = '-' := by
  intro hc
  subst hc
  exact absurd h (by decide)

theorem getMonthInfo_key_has_dash (d : JsStr) (info : MonthInfo)
    (h : getMonthInfo d = some info) : '-' ∈ info.key := by
  simp only [getMonthInfo] at h
  split at h
  · cases h
  · split at h
    · cases h
    · split at h
      · cases h
      · split at h
        · cases h
        · cases h
          simp

theorem addToBucket_sortKey (b : MonthBucket) (i : FuelRecord) :
    (addToBucket b i).sortKey = b.sortKey := rfl

theorem freshBucket_sortKey_inv (i : FuelRecord) :
    ((freshBucket i).key ≠ "unknown".toList → (freshBucket i).sortKey = (freshBucket i).key) ∧
    ((freshBucket i).key = "unknown".toList →
      (freshBucket i).sortKey = "9999-99".toList) := by
  cases hg : getMonthInfo i.date with
  | none => simp [freshBucket, entryKey, entrySortKey, hg]
  | some info =>
    have hdash := getMonthInfo_key_has_dash i.date info hg
    have hne : info.key ≠ "unknown".toList := fun he => absurd (he ▸ hdash) (by decide)
    refine ⟨fun _ => ?_, fun he => absurd ?_ hne⟩
    · simp [freshBucket, entryKey, entrySortKey, hg]
    · simpa [freshBucket, entryKey, hg] using he

theorem upsertBucket_sortKey_inv (i : FuelRecord) :
    ∀ acc : List MonthBucket,
      (∀ b ∈ acc,
        (b.key ≠ "unknown".toList → b.sortKey = b.key) ∧
        (b.key = "unknown".toList → b.sortKey = "9999-99".toList)) →
      ∀ b ∈ upsertBucket acc i,
        (b.key ≠ "unknown".toList → b.sortKey = b.key) ∧
        (b.key = "unknown".toList → b.sortKey = "9999-99".toList) := by
  intro acc
  induction acc with
  | nil =>
    intro _ b hb
    simp only [upsertBucket, List.mem_singleton] at hb
    subst hb
    exact freshBucket_sortKey_inv i
  | cons c rest ih =>
    intro hacc b hb
    by_cases hc : c.key = entryKey i
    · rw [upsertBucket, if_pos hc] at hb
      rcases List.mem_cons.mp hb with rfl | hb
      · exact hacc c (List.mem_cons_self c rest)
      · exact hacc b (List.mem_cons_of_mem c hb)
    · rw [upsertBucket, if_neg hc] at hb
      rcases List.mem_cons.mp hb with rfl | hb
      · exact hacc b (List.mem_cons_self b rest)
      · exact ih (fun x hx => hacc x (List.mem_cons_of_mem c hx)) b hb

theorem buildMonthBuckets_sortKey_inv (items : List FuelRecord) :
    ∀ b ∈ buildMonthBuckets items,
      (b.key ≠ "unknown".toList → b.sortKey = b.key) ∧
      (b.key = "unknown".toList → b.sortKey = "9999-99".toList) := by
  have hgen : ∀ (l : List FuelRecord) (acc : List MonthBucket),
      (∀ b ∈ acc,
        (b.key ≠ "unknown".toList → b.sortKey = b.key) ∧
        (b.key = "unknown".toList → b.sortKey = "9999-99".toList)) →
      ∀ b ∈ l.foldl upsertBucket acc,
        (b.key ≠ "unknown".toList → b.sortKey = b.key) ∧
        (b.key = "unknown".toList → b.sortKey = "9999-99".toList) := by
    intro l
    induction l with
    | nil => intro acc hacc b hb; exact hacc b hb
    | cons i t ih =>
      intro acc hacc b hb
      exact ih (upsertBucket acc i) (upsertBucket_sortKey_inv i acc hacc) b hb
  exact hgen items [] (by intro b hb; cases hb)

theorem isoDate_key (d : JsStr) (hiso : isoDateShape d = true) :
    ∃ info : MonthInfo, getMonthInfo d = some info ∧
      info.key = (normalizeDate d).take 7 := by
  rcases d with _ | ⟨y1, d⟩; · exact Bool.noConfusion hiso
  rcases d with _ | ⟨y2, d⟩; · exact Bool.noConfusion hiso
  rcases d with _ | ⟨y3, d⟩; · exact Bool.noConfusion hiso
  rcases d with _ | ⟨y4, d⟩; · exact Bool.noConfusion hiso
  rcases d with _ | ⟨s1, d⟩; · exact Bool.noConfusion hiso
  rcases d with _ | ⟨m1, d⟩; · exact Bool.noConfusion hiso
  rcases d with _ | ⟨m2, d⟩; · exact Bool.noConfusion hiso
  rcases d with _ | ⟨s2, d⟩; · exact Bool.noConfusion hiso
  rcases d with _ | ⟨t1, d⟩; · exact Bool.noConfusion hiso
  rcases d with _ | ⟨t2, d⟩; · exact Bool.noConfusion hiso
  rcases d with _ | ⟨x, d⟩
  case cons => exact Bool.noConfusion hiso
  simp only [isoDateShape, Bool.and_eq_true, decide_eq_true_eq] at hiso
  obtain ⟨⟨⟨⟨⟨⟨⟨⟨⟨⟨⟨hy1, hy2⟩, hy3⟩, hy4⟩, hs1⟩, hm1⟩, hm2⟩, hs2⟩, ht1⟩, ht2⟩, hge⟩, hle⟩ :=
    hiso
  subst hs1
  subst hs2
  have htrim : jsTrim [y1, y2, y3, y4, '-', m1, m2, '-', t1, t2] =
      [y1, y2, y3, y4, '-', m1, m2, '-', t1, t2] := by
    simp [jsTrim, List.dropWhile, digit_not_space y1 hy1, digit_not_space t2 ht2]
  have hnorm : normalizeDate [y1, y2, y3, y4, '-', m1, m2, '-', t1, t2] =
      [y1, y2, y3, y4, '-', m1, m2, '-', t1, t2] := by
    rw [normalizeDate, if_neg (by simp), htrim]
    rfl
  have hsplit : splitDash [y1, y2, y3, y4, '-', m1, m2, '-', t1, t2] =
      [[y1, y2, y3, y4], [m1, m2], [t1, t2]] := by
    simp [splitDash, splitDashAux, digit_ne_dash y1 hy1, digit_ne_dash y2 hy2,
      digit_ne_dash y3 hy3, digit_ne_dash y4 hy4, digit_ne_dash m1 hm1,
      digit_ne_dash m2 hm2, digit_ne_dash t1 ht1, digit_ne_dash t2 ht2]
  have hnum : jsStringToNum [m1, m2] =
      some (10 * (m1.toNat - 48) + (m2.toNat - 48)) := by
    have htr : jsTrim [m1, m2] = [m1, m2] := by
      simp [jsTrim, List.dropWhile, digit_not_space m1 hm1, digit_not_space m2 hm2]
    simp [jsStringToNum, htr, hm1, hm2, digitsToNat, List.foldl]
  have hn0 : ¬(10 * (m1.toNat - 48) + (m2.toNat - 48) = 0) := by omega
  have hn12 : ¬(12 < 10 * (m1.toNat - 48) + (m2.toNat - 48)) := by omega
  refine ⟨⟨[y1, y2, y3, y4, '-', m1, m2],
    (MONTH_LABELS.getD (10 * (m1.toNat - 48) + (m2.toNat - 48) - 1) []) ++
      ' ' :: [y1, y2, y3, y4]⟩, ?_, ?_⟩
  · simp [getMonthInfo, hnorm, hsplit, hnum, hn0, hn12]
  · rw [hnorm]
    rfl

theorem monthlyOf_sortKey_inv (rs : List FuelRecord) :
    ∀ m ∈ monthlyOf rs,
      (m.key ≠ "unknown".toList → m.sortKey = m.key) ∧
      (m.key = "unknown".toList → m.sortKey = "9999-99".toList) := by
  intro m hm
  rcases List.mem_map.mp hm with ⟨b, hb, rfl⟩
  have hb' : b ∈ buildMonthBuckets (sortByLe fuelItemLe (fuelOnlyRecordsOf rs)) :=
    (sortByLe_perm monthBucketLe _).mem_iff.mp hb
  exact buildMonthBuckets_sortKey_inv _ b hb'

theorem monthlyOf_sortKeys_pairwise (rs : List FuelRecord) :
    ((monthlyOf rs).map MonthRow.sortKey).Pairwise (fun x y => jsStrLe x y = true) := by
  have hmap : (monthlyOf rs).map MonthRow.sortKey =
      (bucketsOf rs).map MonthBucket.sortKey := by
    rw [monthlyOf, List.map_map]
    rfl
  rw [hmap, List.pairwise_map]
  exact sortByLe_pairwise monthBucketLe
    (fun x y => jsStrLe_total x.sortKey y.sortKey)
    (fun x y z h1 h2 => jsStrLe_trans x.sortKey y.sortKey z.sortKey h1 h2) _

/-! ## Claim C7 -/

/-- C7: the monthly aggregator groups only fuel entries; it produces exactly one
aggregate per month key present in the data, sorted ascending by (lexicographic)
sort key, which for a parseable month is the month key itself; an entry with a
well-formed `YYYY-MM-DD` date is keyed by the first 7 characters of its date;
entries whose date does not parse all land in the single `unknown` bucket, which is
ordered by the sentinel sort key `9999-99` instead of a chronological month key and
is still included in the grand totals (the totals equal the direct sums over every
fuel entry). -/
theorem c7_monthly_grouping (rs : List FuelRecord) :
    ((fuelSummary rs).monthly.map MonthRow.key).Nodup ∧
    (∀ k : JsStr, k ∈ (fuelSummary rs).monthly.map MonthRow.key ↔
      k ∈ (fuelOnlyRecordsOf rs).map entryKey) ∧
    (∀ e ∈ fuelOnlyRecordsOf rs, isoDateShape e.date = true →
      entryKey e = (normalizeDate e.date).take 7) ∧
    (∀ e ∈ fuelOnlyRecordsOf rs, getMonthInfo e.date = none →
      entryKey e = "unknown".toList ∧ entrySortKey e = "9999-99".toList) ∧
    ((fuelSummary rs).monthly.map MonthRow.sortKey).Pairwise
      (fun x y => jsStrLe x y = true) ∧
    (∀ m ∈ (fuelSummary rs).monthly,
      (m.key ≠ "unknown".toList → m.sortKey = m.key) ∧
      (m.key = "unknown".toList → m.sortKey = "9999-99".toList)) ∧
    (fuelSummary rs).totals.totalMileage =
      sumBy (fun e => e.mileage.getD 0) (fuelOnlyRecordsOf rs) ∧
    (fuelSummary rs).totals.totalLiters =
      sumBy (fun e => e.liters.getD 0) (fuelOnlyRecordsOf rs) ∧
    (fuelSummary rs).totals.fuelNorm = sumBy entryFuelNorm (fuelOnlyRecordsOf rs) := by
  have htotal : ∀ (proj : MonthBucket → ℚ) (rowProj : MonthRow → ℚ)
      (contrib : FuelRecord → ℚ),
      (∀ adjs b, rowProj (mkMonthRow adjs b) = proj b) →
      (∀ b i, proj (addToBucket b i) = proj b + contrib i) →
      (∀ i, proj (freshBucket i) = 0) →
      sumBy rowProj (monthlyOf rs) = sumBy contrib (fuelOnlyRecordsOf rs) := by
    intro proj rowProj contrib hrow hadd hfresh
    rw [monthlyOf, sumBy_map]
    have h1 : sumBy (fun b => rowProj (mkMonthRow (adjustmentRecordsOf rs) b))
        (bucketsOf rs) = sumBy proj (bucketsOf rs) :=
      sumBy_congr (fun b _ => hrow _ b)
    rw [h1, bucketsOf, sumBy_perm proj (sortByLe_perm monthBucketLe _),
      buildMonthBuckets_sumBy proj contrib hadd hfresh,
      sumBy_perm contrib (sortByLe_perm fuelItemLe _)]
  refine ⟨monthlyOf_keys_nodup rs, fun k => monthlyOf_mem_keys rs k, ?_, ?_,
    monthlyOf_sortKeys_pairwise rs, monthlyOf_sortKey_inv rs, ?_, ?_, ?_⟩
  · intro e _ hiso
    obtain ⟨info, hinfo, hkey⟩ := isoDate_key e.date hiso
    simp [entryKey, hinfo, hkey]
  · intro e _ hnone
    constructor
    · simp [entryKey, hnone]
    · simp [entrySortKey, hnone]
  · exact htotal (fun b => b.totalMileage) (fun m => m.totalMileage)
      (fun e => e.mileage.getD 0) (fun adjs b => rfl) (fun b i => rfl) (fun i => rfl)
  · exact htotal (fun b => b.totalLiters) (fun m => m.totalLiters)
      (fun e => e.liters.getD 0) (fun adjs b => rfl) (fun b i => rfl) (fun i => rfl)
  · exact htotal (fun b => b.fuelNorm) (fun m => m.fuelNorm)
      entryFuelNorm (fun adjs b => rfl) (fun b i => rfl) (fun i => rfl)

/-- C7 witness: on a June entry, a December entry and one garbage-dated entry, the
June entry is keyed by the first 7 characters of its date, the month keys are
exactly the entry keys with no duplicates, and the mileage total (including the
unknown bucket's) equals the direct sum over all three entries. -/
theorem c7_monthly_grouping_witness :
    entryKey fuelJune = (normalizeDate fuelJune.date).take 7 ∧
    entryKey fuelNoDate = "unknown".toList ∧
    entrySortKey fuelNoDate = "9999-99".toList ∧
    ((fuelSummary [fuelJune, fuelDec, fuelNoDate]).monthly.map MonthRow.key).Nodup ∧
    (fuelSummary [fuelJune, fuelDec, fuelNoDate]).totals.totalMileage =
      sumBy (fun e => e.mileage.getD 0)
        (fuelOnlyRecordsOf [fuelJune, fuelDec, fuelNoDate]) := by
  have hf : fuelOnlyRecordsOf [fuelJune, fuelDec, fuelNoDate] =
      [fuelJune, fuelDec, fuelNoDate] := by
    simp [fuelOnlyRecordsOf, List.filter, isFuelRecord, isAdjustmentRecord, fuelJune,
      fuelDec, fuelNoDate]
  have h := c7_monthly_grouping [fuelJune, fuelDec, fuelNoDate]
  have hmemJ : fuelJune ∈ fuelOnlyRecordsOf [fuelJune, fuelDec, fuelNoDate] := by
    rw [hf]; exact List.mem_cons_self _ _
  have hmemN : fuelNoDate ∈ fuelOnlyRecordsOf [fuelJune, fuelDec, fuelNoDate] := by
    rw [hf]; simp
  have hunk := h.2.2.2.1 fuelNoDate hmemN (by decide)
  exact ⟨h.2.2.1 fuelJune hmemJ (by decide), hunk.1, hunk.2, h.1, h.2.2.2.2.2.2.1⟩

theorem buildMonthBuckets_pair_same_key (x y : FuelRecord)
    (hxy : entryKey x = entryKey y) :
    buildMonthBuckets [x, y] = [addToBucket (addToBucket (freshBucket x) x) y] := by
  simp only [buildMonthBuckets, List.foldl, upsertBucket]
  rw [if_pos (by rw [addToBucket_key, freshBucket_key, hxy])]

/-! ## Claim C6 -/

/-- C6: two fuel entries dated in the same calendar month produce a single monthly
aggregate whose `totalMileage`, `totalLiters` and `fuelNorm` are the sums of the two
entries' distances, liters, and per-entry norms. -/
theorem c6_aggregation_additivity (e1 e2 : FuelRecord) (i1 i2 : MonthInfo)
    (hf1 : isFuelRecord e1 = true) (hf2 : isFuelRecord e2 = true)
    (h1 : getMonthInfo e1.date = some i1) (h2 : getMonthInfo e2.date = some i2)
    (hkey : i1.key = i2.key) :
    ∃ m : MonthRow, (fuelSummary [e1, e2]).monthly = [m] ∧
      m.totalMileage = e1.mileage.getD 0 + e2.mileage.getD 0 ∧
      m.totalLiters = e1.liters.getD 0 + e2.liters.getD 0 ∧
      m.fuelNorm = entryFuelNorm e1 + entryFuelNorm e2 := by
  have hff : fuelOnlyRecordsOf [e1, e2] = [e1, e2] := by
    simp [fuelOnlyRecordsOf, List.filter, hf1, hf2]
  have hadj : adjustmentRecordsOf [e1, e2] = [] := by
    have g1 : isAdjustmentRecord e1 = false := by
      revert hf1; rw [isFuelRecord]; cases isAdjustmentRecord e1 <;> simp
    have g2 : isAdjustmentRecord e2 = false := by
      revert hf2; rw [isFuelRecord]; cases isAdjustmentRecord e2 <;> simp
    simp [adjustmentRecordsOf, List.filter, g1, g2]
  have hk1 : entryKey e1 = i1.key := by simp [entryKey, h1]
  have hk2 : entryKey e2 = i1.key := by simp [entryKey, h2, hkey]
  have hsort : sortByLe fuelItemLe [e1, e2] = [e1, e2] ∨
      sortByLe fuelItemLe [e1, e2] = [e2, e1] := by
    simp only [sortByLe, insertLe]
    by_cases hle : fuelItemLe e1 e2 = true
    · left; rw [if_pos hle]
    · right; rw [if_neg hle]
  rcases hsort with hs | hs
  · have hm : (fuelSummary [e1, e2]).monthly =
        [mkMonthRow [] (addToBucket (addToBucket (freshBucket e1) e1) e2)] := by
      rw [fuelSummary_monthly, monthlyOf, bucketsOf, hff, hadj, hs,
        buildMonthBuckets_pair_same_key e1 e2 (hk1.trans hk2.symm)]
      simp [sortByLe, insertLe]
    refine ⟨_, hm, ?_, ?_, ?_⟩
    · rw [mkMonthRow_totalMileage]
      simp only [addToBucket, freshBucket]
      ring
    · rw [mkMonthRow_totalLiters]
      simp only [addToBucket, freshBucket]
      ring
    · rw [mkMonthRow_fuelNorm]
      simp only [addToBucket, freshBucket]
      ring
  · have hm : (fuelSummary [e1, e2]).monthly =
        [mkMonthRow [] (addToBucket (addToBucket (freshBucket e2) e2) e1)] := by
      rw [fuelSummary_monthly, monthlyOf, bucketsOf, hff, hadj, hs,
        buildMonthBuckets_pair_same_key e2 e1 (hk2.trans hk1.symm)]
      simp [sortByLe, insertLe]
    refine ⟨_, hm, ?_, ?_, ?_⟩
    · rw [mkMonthRow_totalMileage]
      simp only [addToBucket, freshBucket]
      ring
    · rw [mkMonthRow_totalLiters]
      simp only [addToBucket, freshBucket]
      ring
    · rw [mkMonthRow_fuelNorm]
      simp only [addToBucket, freshBucket]
      ring

/-- C6 witness: the two June 2025 entries (1000 km/80 l and 500 km/30 l) aggregate
to 1500 km, 110 l, and a norm of 94 + 47 = 141 l. -/
theorem c6_aggregation_additivity_witness :
    ∃ m : MonthRow, (fuelSummary [fuelJune, fuelJuneSecond]).monthly = [m] ∧
      m.totalMileage = 1500 ∧ m.totalLiters = 110 ∧ m.fuelNorm = 141 := by
  obtain ⟨m, hm, h1, h2, h3⟩ :=
    c6_aggregation_additivity fuelJune fuelJuneSecond
      ⟨"2025-06".toList, "Июнь 2025".toList⟩ ⟨"2025-06".toList, "Июнь 2025".toList⟩
      (by decide) (by decide) (by decide) (by decide) rfl
  refine ⟨m, hm, ?_, ?_, ?_⟩
  · rw [h1]; norm_num [fuelJune, fuelJuneSecond]
  · rw [h2]; norm_num [fuelJune, fuelJuneSecond]
  · rw [h3]
    simp +decide [entryFuelNorm, fuelJune, fuelJuneSecond, getFuelConsumptionRate,
      normalizeDate, jsTrim, isJsSpace, FUEL_CONSUMPTION_RATE_DATES,
      FUEL_CONSUMPTION_RATE]
    norm_num

/-! ## Claim C2 -/

/-- C2 (amended): whenever every adjustment's month key occurs among the summary's
month keys, the sum over all months of the unresolved remaining compensation plus
the total resolved compensation (all payments plus all effective debt deductions)
equals the total accrued compensation of the period.  (Without that hypothesis an
adjustment keyed to a month with no fuel entry is counted in the resolved totals
but appears in no month's ledger, and the identity fails.) -/
theorem c2_carry_conservation (rs : List FuelRecord)
    (hmatch : ∀ a ∈ adjustmentRecordsOf rs,
      getRecordMonthKey a ∈ (fuelSummary rs).monthly.map MonthRow.key) :
    sumBy (fun m => m.remainingCompensation) (fuelSummary rs).monthly +
      ((fuelSummary rs).totals.totalPaidCompensation +
        sumBy effectiveDebtItemAmount (debtAdjustmentsOf rs)) =
      (fuelSummary rs).totals.totalCompensation := by
  rw [fuelSummary_monthly, fuelSummary_totalPaid, fuelSummary_totalCompensation] at *
  set adjs := adjustmentRecordsOf rs with hadjs
  set keys := (monthlyOf rs).map MonthRow.key with hkeys
  have hnodup : keys.Nodup := monthlyOf_keys_nodup rs
  -- the per-month sums, written over the bucket list
  rw [monthlyOf, sumBy_map, sumBy_map]
  have hrem : ∀ b ∈ bucketsOf rs,
      (fun b => (mkMonthRow adjs b).remainingCompensation) b =
        (fun b => (mkMonthRow adjs b).compensation) b -
          ((fun b => monthPaid adjs b.key) b + (fun b => monthEffectiveDebt adjs b.key) b) := by
    intro b _
    show (mkMonthRow adjs b).remainingCompensation =
      (mkMonthRow adjs b).compensation -
        (monthPaid adjs b.key + monthEffectiveDebt adjs b.key)
    rw [mkMonthRow_remaining, mkMonthRow_compensation]
  rw [sumBy_congr hrem]
  have hsplit :
      sumBy (fun b => (mkMonthRow adjs b).compensation -
          (monthPaid adjs b.key + monthEffectiveDebt adjs b.key)) (bucketsOf rs) =
        sumBy (fun b => (mkMonthRow adjs b).compensation) (bucketsOf rs) -
          (sumBy (fun b => monthPaid adjs b.key) (bucketsOf rs) +
            sumBy (fun b => monthEffectiveDebt adjs b.key) (bucketsOf rs)) := by
    rw [sumBy_sub, sumBy_add]
  rw [hsplit]
  -- the paid sums over the distinct month keys absorb every payment
  have hkeysEq : (bucketsOf rs).map MonthBucket.key = keys := (monthlyOf_keys rs).symm
  have hpaid : sumBy (fun b => monthPaid adjs b.key) (bucketsOf rs) =
      sumBy (fun item => item.amount.getD 0) (paymentAdjustmentsOf rs) := by
    have h1 : sumBy (fun b => monthPaid adjs b.key) (bucketsOf rs) =
        sumBy (fun k => monthPaid adjs k) ((bucketsOf rs).map MonthBucket.key) :=
      (sumBy_map MonthBucket.key (fun k => monthPaid adjs k) (bucketsOf rs)).symm
    rw [h1, hkeysEq]
    have h2 : ∀ k ∈ keys, monthPaid adjs k =
        sumBy (fun item => item.amount.getD 0)
          ((paymentAdjustmentsOf rs).filter (fun a => getRecordMonthKey a = k)) := by
      intro k _
      rw [monthPaid, monthAdjustmentsFor, List.filter_comm, paymentAdjustmentsOf, hadjs]
    rw [sumBy_congr h2]
    exact sumBy_key_partition (fun item => item.amount.getD 0) getRecordMonthKey
      (paymentAdjustmentsOf rs) keys hnodup
      (fun a ha => hmatch a (List.mem_of_mem_filter ha))
  have hdebt : sumBy (fun b => monthEffectiveDebt adjs b.key) (bucketsOf rs) =
      sumBy effectiveDebtItemAmount (debtAdjustmentsOf rs) := by
    have h1 : sumBy (fun b => monthEffectiveDebt adjs b.key) (bucketsOf rs) =
        sumBy (fun k => monthEffectiveDebt adjs k) ((bucketsOf rs).map MonthBucket.key) :=
      (sumBy_map MonthBucket.key (fun k => monthEffectiveDebt adjs k) (bucketsOf rs)).symm
    rw [h1, hkeysEq]
    have h2 : ∀ k ∈ keys, monthEffectiveDebt adjs k =
        sumBy effectiveDebtItemAmount
          ((debtAdjustmentsOf rs).filter (fun a => getRecordMonthKey a = k)) := by
      intro k _
      rw [monthEffectiveDebt, monthDebtItems, monthAdjustmentsFor, List.filter_comm,
        debtAdjustmentsOf, hadjs]
    rw [sumBy_congr h2]
    exact sumBy_key_partition effectiveDebtItemAmount getRecordMonthKey
      (debtAdjustmentsOf rs) keys hnodup
      (fun a ha => hmatch a (List.mem_of_mem_filter ha))
  rw [hpaid, hdebt]
  ring

/-- C2 counterexample: with one June fuel entry (accrued 5000) and one payment of
100 keyed to July — a month with no fuel entry — the unresolved remainders plus the
resolved totals come to 5100, not the accrued 5000: the ledger counts the July
payment in the totals but applies it to no month. -/
theorem c2_carry_conservation_counterexample :
    sumBy (fun m => m.remainingCompensation)
        (fuelSummary [fuelJune, payJuly100]).monthly +
      ((fuelSummary [fuelJune, payJuly100]).totals.totalPaidCompensation +
        sumBy effectiveDebtItemAmount (debtAdjustmentsOf [fuelJune, payJuly100])) = 5100 ∧
    (fuelSummary [fuelJune, payJuly100]).totals.totalCompensation = 5000 ∧
    (5100 : ℚ) ≠ 5000 := by
  refine ⟨?_, ?_, by norm_num⟩ <;>
  · simp +decide [fuelSummary, monthlyOf, bucketsOf, fuelOnlyRecordsOf, adjustmentRecordsOf,
      paymentAdjustmentsOf, debtAdjustmentsOf, mkMonthRow, monthPaid, monthDebtItems,
      monthAdjustmentsFor, monthEffectiveDebt, effectiveDebtItemAmount, sumBy,
      buildMonthBuckets, upsertBucket, addToBucket, freshBucket, entryKey, entrySortKey,
      entryLabel, entryFuelNorm, getMonthInfo, normalizeDate, jsTrim, isJsSpace, splitDash,
      splitDashAux, jsStringToNum, digitsToNat, MONTH_LABELS, getFuelConsumptionRate,
      FUEL_CONSUMPTION_RATE, FUEL_CONSUMPTION_RATE_INCREASE, FUEL_CONSUMPTION_RATE_DATES,
      APPROX_FUEL_PRICE_RUB, sortByLe, insertLe, jsStrLt, jsStrLe, monthBucketLe,
      fuelItemLe, getRecordMonthKey, isMonthKeyShape, isAdjustmentRecord, isFuelRecord,
      fuelJune, payJuly100]
    norm_num

/-- C2 witness: with the June fuel entry, the June payment of 5000 and the June
10-liter deduction, every adjustment is keyed to an existing month and the
conservation identity holds. -/
theorem c2_carry_conservation_witness :
    sumBy (fun m => m.remainingCompensation)
        (fuelSummary [fuelJune, payJune5000, dedJune10l]).monthly +
      ((fuelSummary [fuelJune, payJune5000, dedJune10l]).totals.totalPaidCompensation +
        sumBy effectiveDebtItemAmount (debtAdjustmentsOf [fuelJune, payJune5000, dedJune10l])) =
      (fuelSummary [fuelJune, payJune5000, dedJune10l]).totals.totalCompensation := by
  apply c2_carry_conservation
  intro a ha
  rw [fuelSummary_monthly, monthlyOf_keys]
  revert a ha
  simp +decide [bucketsOf, fuelOnlyRecordsOf, adjustmentRecordsOf, buildMonthBuckets,
    upsertBucket, addToBucket, freshBucket, entryKey, entrySortKey, entryLabel,
    getMonthInfo, normalizeDate, jsTrim, isJsSpace, splitDash, splitDashAux,
    jsStringToNum, digitsToNat, MONTH_LABELS, sortByLe, insertLe, jsStrLt, jsStrLe,
    monthBucketLe, fuelItemLe, getRecordMonthKey, isMonthKeyShape, isAdjustmentRecord,
    isFuelRecord, fuelJune, payJune5000, dedJune10l]

/-! ## Claim C10 -/

/-- C10: an adjustment whose month key matches no month of the summary produces no
monthly row and changes no monthly figure — the whole `monthly` array is unchanged —
yet it is still counted in the period totals (`totalPaidCompensation`,
`totalDebtDeductionAmount`, `totalDebtDeductionLiters`, and hence
`netCompensation`). -/
theorem c10_unmatched_adjustment_totals (rs : List FuelRecord) (a : FuelRecord)
    (ha : isAdjustmentRecord a = true)
    (hk : getRecordMonthKey a ∉ (fuelSummary rs).monthly.map MonthRow.key) :
    (fuelSummary (rs ++ [a])).monthly = (fuelSummary rs).monthly ∧
    (fuelSummary (rs ++ [a])).totals.totalPaidCompensation =
      (fuelSummary rs).totals.totalPaidCompensation +
        (if a.adjustmentKind = some AdjustmentKind.compensation_payment then
          a.amount.getD 0 else 0) ∧
    (fuelSummary (rs ++ [a])).totals.totalDebtDeductionAmount =
      (fuelSummary rs).totals.totalDebtDeductionAmount +
        (if a.adjustmentKind = some AdjustmentKind.debt_deduction then
          a.amount.getD 0 else 0) ∧
    (fuelSummary (rs ++ [a])).totals.totalDebtDeductionLiters =
      (fuelSummary rs).totals.totalDebtDeductionLiters +
        (if a.adjustmentKind = some AdjustmentKind.debt_deduction then
          a.liters.getD 0 else 0) ∧
    (fuelSummary (rs ++ [a])).totals.netCompensation =
      (fuelSummary rs).totals.netCompensation -
        (if a.adjustmentKind = some AdjustmentKind.compensation_payment then
          a.amount.getD 0 else 0) -
        (if a.adjustmentKind = some AdjustmentKind.debt_deduction then
          effectiveDebtItemAmount a else 0) := by
  rw [fuelSummary_monthly, fuelSummary_monthly] at *
  have hmon := monthlyOf_append_unmatched rs a ha hk
  have hpay : sumBy (fun item => item.amount.getD 0) (paymentAdjustmentsOf (rs ++ [a])) =
      sumBy (fun item => item.amount.getD 0) (paymentAdjustmentsOf rs) +
        (if a.adjustmentKind = some AdjustmentKind.compensation_payment then
          a.amount.getD 0 else 0) := by
    rw [paymentAdjustmentsOf_append_adj rs a ha, sumBy_append]
    congr 1
    by_cases hkind : a.adjustmentKind = some AdjustmentKind.compensation_payment
    · simp [hkind, sumBy_cons, sumBy_nil]
    · simp [hkind, sumBy_nil]
  have hdebtAmt : sumBy (fun item => item.amount.getD 0) (debtAdjustmentsOf (rs ++ [a])) =
      sumBy (fun item => item.amount.getD 0) (debtAdjustmentsOf rs) +
        (if a.adjustmentKind = some AdjustmentKind.debt_deduction then
          a.amount.getD 0 else 0) := by
    rw [debtAdjustmentsOf_append_adj rs a ha, sumBy_append]
    congr 1
    by_cases hkind : a.adjustmentKind = some AdjustmentKind.debt_deduction
    · simp [hkind, sumBy_cons, sumBy_nil]
    · simp [hkind, sumBy_nil]
  have hdebtLit : sumBy (fun item => item.liters.getD 0) (debtAdjustmentsOf (rs ++ [a])) =
      sumBy (fun item => item.liters.getD 0) (debtAdjustmentsOf rs) +
        (if a.adjustmentKind = some AdjustmentKind.debt_deduction then
          a.liters.getD 0 else 0) := by
    rw [debtAdjustmentsOf_append_adj rs a ha, sumBy_append]
    congr 1
    by_cases hkind : a.adjustmentKind = some AdjustmentKind.debt_deduction
    · simp [hkind, sumBy_cons, sumBy_nil]
    · simp [hkind, sumBy_nil]
  have hdebtEff : sumBy effectiveDebtItemAmount (debtAdjustmentsOf (rs ++ [a])) =
      sumBy effectiveDebtItemAmount (debtAdjustmentsOf rs) +
        (if a.adjustmentKind = some AdjustmentKind.debt_deduction then
          effectiveDebtItemAmount a else 0) := by
    rw [debtAdjustmentsOf_append_adj rs a ha, sumBy_append]
    congr 1
    by_cases hkind : a.adjustmentKind = some AdjustmentKind.debt_deduction
    · simp [hkind, sumBy_cons, sumBy_nil]
    · simp [hkind, sumBy_nil]
  refine ⟨hmon, ?_, ?_, ?_, ?_⟩
  · rw [fuelSummary_totalPaid, fuelSummary_totalPaid, hpay]
  · rw [fuelSummary_totalDebtAmount, fuelSummary_totalDebtAmount, hdebtAmt]
  · rw [fuelSummary_totalDebtLiters, fuelSummary_totalDebtLiters, hdebtLit]
  · rw [fuelSummary_netCompensation, fuelSummary_netCompensation, hmon, hpay, hdebtEff]
    ring

/-- C10 witness: a July payment of 100 on a data set whose only fuel month is June
leaves the monthly rows untouched while `totalPaidCompensation` grows by 100 and
`netCompensation` shrinks by 100. -/
theorem c10_unmatched_adjustment_totals_witness :
    (fuelSummary [fuelJune, payJuly100]).monthly = (fuelSummary [fuelJune]).monthly ∧
    (fuelSummary [fuelJune, payJuly100]).totals.totalPaidCompensation =
      (fuelSummary [fuelJune]).totals.totalPaidCompensation + 100 ∧
    (fuelSummary [fuelJune, payJuly100]).totals.netCompensation =
      (fuelSummary [fuelJune]).totals.netCompensation - 100 := by
  have hk : getRecordMonthKey payJuly100 ∉
      (fuelSummary [fuelJune]).monthly.map MonthRow.key := by
    rw [fuelSummary_monthly, monthlyOf_keys]
    simp +decide [bucketsOf, fuelOnlyRecordsOf, buildMonthBuckets, upsertBucket,
      addToBucket, freshBucket, entryKey, entrySortKey, entryLabel, getMonthInfo,
      normalizeDate, jsTrim, isJsSpace, splitDash, splitDashAux, jsStringToNum,
      digitsToNat, MONTH_LABELS, sortByLe, insertLe, jsStrLt, jsStrLe, monthBucketLe,
      fuelItemLe, getRecordMonthKey, isMonthKeyShape, isAdjustmentRecord, isFuelRecord,
      fuelJune, payJuly100]
  have h := c10_unmatched_adjustment_totals [fuelJune] payJuly100 (by decide) hk
  simp only [List.singleton_append] at h
  refine ⟨h.1, ?_, ?_⟩
  · rw [h.2.1]
    simp +decide [payJuly100]
  · rw [h.2.2.2.2]
    simp +decide [payJuly100, effectiveDebtItemAmount]

/-! ## Claim C4 -/

/-- C4: appending one `debt_deduction` adjustment changes each month's effective
applied compensation by exactly the deduction's effective amount when the month key
matches (and by nothing otherwise), where the effective amount is the recorded
`amount` when present and `liters × APPROX_FUEL_PRICE_RUB` when only liters were
recorded; and the deduction's liters are added to `totalDebtDeductionLiters` in the
period totals. -/
theorem c4_debt_deduction_contribution (rs : List FuelRecord) (a : FuelRecord)
    (ha : isAdjustmentRecord a = true)
    (hkind : a.adjustmentKind = some AdjustmentKind.debt_deduction) :
    ((fuelSummary (rs ++ [a])).monthly.map
        (fun m => (m.key, m.effectiveAppliedCompensation))) =
      ((fuelSummary rs).monthly.map
        (fun m => (m.key, m.effectiveAppliedCompensation +
          (if m.key = getRecordMonthKey a then effectiveDebtItemAmount a else 0)))) ∧
    (a.amount = none → ∀ l : ℚ, a.liters = some l →
        effectiveDebtItemAmount a = l * APPROX_FUEL_PRICE_RUB) ∧
    (∀ v : ℚ, a.amount = some v → effectiveDebtItemAmount a = v) ∧
    (fuelSummary (rs ++ [a])).totals.totalDebtDeductionLiters =
      (fuelSummary rs).totals.totalDebtDeductionLiters + a.liters.getD 0 := by
  refine ⟨?_, ?_, ?_, ?_⟩
  · rw [fuelSummary_monthly, fuelSummary_monthly, monthlyOf, monthlyOf,
      bucketsOf_append_adj rs a ha, adjustmentRecordsOf_append_adj rs a ha,
      List.map_map, List.map_map]
    apply List.map_congr_left
    intro b hb
    simp only [Function.comp_apply, mkMonthRow_key, mkMonthRow_effectiveApplied]
    have hp := monthPaid_append (adjustmentRecordsOf rs) a b.key
    have he := monthEffectiveDebt_append (adjustmentRecordsOf rs) a b.key
    by_cases hmatch : b.key = getRecordMonthKey a
    · rw [if_neg (by simp [hkind])] at hp
      rw [if_pos ⟨hmatch.symm, hkind⟩] at he
      rw [if_pos hmatch, hp, he]
      simp only [Prod.mk.injEq, true_and]
      ring
    · rw [if_neg (fun hc => hmatch hc.1.symm)] at hp
      rw [if_neg (fun hc => hmatch hc.1.symm)] at he
      rw [if_neg hmatch, hp, he]
      simp only [Prod.mk.injEq, true_and]
      ring
  · intro hamt l hl
    rw [effectiveDebtItemAmount, hamt, hl]
    rfl
  · intro v hv
    rw [effectiveDebtItemAmount, hv]
  · rw [fuelSummary_totalDebtLiters, fuelSummary_totalDebtLiters,
      debtAdjustmentsOf_append_adj rs a ha, sumBy_append, if_pos hkind, sumBy_cons,
      sumBy_nil]
    ring

/-- C4 witness: the spec's concrete scenario — a `debt_deduction` with `liters = 10`
and no amount for June contributes 760 to the June month's effective applied
compensation and 10 to `totalDebtDeductionLiters`. -/
theorem c4_debt_deduction_contribution_witness :
    ((fuelSummary [fuelJune, dedJune10l]).monthly.map
        (fun m => (m.key, m.effectiveAppliedCompensation))) =
      [("2025-06".toList, (760 : ℚ))] ∧
    effectiveDebtItemAmount dedJune10l = 10 * APPROX_FUEL_PRICE_RUB ∧
    (fuelSummary [fuelJune, dedJune10l]).totals.totalDebtDeductionLiters = 10 := by
  have h := c4_debt_deduction_contribution [fuelJune] dedJune10l (by decide) rfl
  simp only [List.singleton_append] at h
  refine ⟨?_, h.2.1 rfl 10 rfl, ?_⟩
  · rw [h.1]
    simp +decide [fuelSummary, monthlyOf, bucketsOf, fuelOnlyRecordsOf,
      adjustmentRecordsOf, mkMonthRow, monthPaid, monthDebtItems, monthAdjustmentsFor,
      monthEffectiveDebt, effectiveDebtItemAmount, sumBy, buildMonthBuckets,
      upsertBucket, addToBucket, freshBucket, entryKey, entrySortKey, entryLabel,
      entryFuelNorm, getMonthInfo, normalizeDate, jsTrim, isJsSpace, splitDash,
      splitDashAux, jsStringToNum, digitsToNat, MONTH_LABELS, getFuelConsumptionRate,
      FUEL_CONSUMPTION_RATE, FUEL_CONSUMPTION_RATE_INCREASE, FUEL_CONSUMPTION_RATE_DATES,
      APPROX_FUEL_PRICE_RUB, sortByLe, insertLe, jsStrLt, jsStrLe, monthBucketLe,
      fuelItemLe, getRecordMonthKey, isMonthKeyShape, isAdjustmentRecord, isFuelRecord,
      fuelJune, dedJune10l]
    norm_num
  · rw [h.2.2.2]
    simp +decide [fuelSummary_totalDebtLiters, debtAdjustmentsOf, adjustmentRecordsOf,
      sumBy_nil, dedJune10l, fuelJune, isAdjustmentRecord, sumBy]

/-! ## Claim C5 -/

/-- C5: for every combination of fuel entries and debt deductions, the period totals
satisfy `adjustedFuelDiff = (totalNorm − totalLiters) + totalDebtDeductionLiters`
exactly. -/
theorem c5_adjusted_balance_identity (rs : List FuelRecord) :
    (fuelSummary rs).totals.adjustedFuelDiff =
      ((fuelSummary rs).totals.fuelNorm - (fuelSummary rs).totals.totalLiters) +
        (fuelSummary rs).totals.totalDebtDeductionLiters := rfl

/-! ## Claim C3 -/

/-- C3: for every entry, the per-entry fuel norm equals
`distance × rate(date) / 100` when the distance is positive, and `0` when the
distance is zero or absent (whatever the date, liters or cost); and the rate is
exactly `baseline × (1 + increase)` on the literal step-change dates and exactly
`baseline` on any other (normalized `YYYY-MM-DD`) date. -/
theorem c3_per_entry_norm_and_rate (e : FuelRecord) (d : JsStr) :
    (∀ m : ℚ, e.mileage = some m → 0 < m →
        entryFuelNorm e = m * getFuelConsumptionRate e.date / 100) ∧
    (e.mileage = none ∨ e.mileage = some 0 → entryFuelNorm e = 0) ∧
    (d ∈ FUEL_CONSUMPTION_RATE_DATES →
        getFuelConsumptionRate d =
          FUEL_CONSUMPTION_RATE * (1 + FUEL_CONSUMPTION_RATE_INCREASE)) ∧
    (d ∉ FUEL_CONSUMPTION_RATE_DATES → normalizeDate d = d →
        getFuelConsumptionRate d = FUEL_CONSUMPTION_RATE) := by
  refine ⟨?_, ?_, ?_, ?_⟩
  · intro m hm hpos
    rw [entryFuelNorm, hm]
    simp only [Option.getD_some]
    rw [if_pos hpos]
  · rintro (h | h) <;> simp [entryFuelNorm, h]
  · intro hd
    simp only [FUEL_CONSUMPTION_RATE_DATES, List.mem_cons, List.mem_singleton,
      List.not_mem_nil, or_false] at hd
    rcases hd with rfl | rfl | rfl | rfl <;> rfl
  · intro hd hnorm
    have hcond : ¬(normalizeDate d ≠ [] ∧ normalizeDate d ∈ FUEL_CONSUMPTION_RATE_DATES) := by
      rw [hnorm]
      intro hc
      exact hd hc.2
    simp only [getFuelConsumptionRate]
    rw [if_neg hcond]

/-- C3 witness: the spec's concrete scenarios. The June entry (1000 km, not a step
date) accrues a norm of exactly 94 l; the 2025-12-31 step date gets the increased
rate; 2025-06-15 gets the baseline. -/
theorem c3_per_entry_norm_and_rate_witness :
    entryFuelNorm fuelJune = 94 ∧
    getFuelConsumptionRate ("2025-12-31".toList) =
      FUEL_CONSUMPTION_RATE * (1 + FUEL_CONSUMPTION_RATE_INCREASE) ∧
    getFuelConsumptionRate ("2025-06-15".toList) = FUEL_CONSUMPTION_RATE := by
  have h1 := (c3_per_entry_norm_and_rate fuelJune ("2025-12-31".toList)).2.2.1 (by decide)
  have h2 := (c3_per_entry_norm_and_rate fuelJune ("2025-06-15".toList)).2.2.2
    (by decide) (by decide)
  have h3 := (c3_per_entry_norm_and_rate fuelJune ("2025-06-15".toList)).1 1000 rfl
    (by norm_num)
  refine ⟨?_, h1, h2⟩
  rw [h3]
  show (1000 : ℚ) * getFuelConsumptionRate ("2025-06-15".toList) / 100 = 94
  rw [h2]
  norm_num [FUEL_CONSUMPTION_RATE]

/-! ## Claim C1 -/

/-- C1 (amended): for every month of the computed summary, the status is
`Закрыто` (closed) exactly when the effective applied compensation is at least the
accrued compensation and the accrued compensation is positive; `Частично закрыто`
(partially closed) exactly when the month is not closed and the effective applied
compensation is positive — including months whose accrued compensation is zero;
and `Открыто` (open) exactly when the month is not closed and the effective applied
compensation is not positive. -/
theorem c1_closure_status (rs : List FuelRecord) (m : MonthRow)
    (hm : m ∈ (fuelSummary rs).monthly) :
    (m.compensationStatusLabel = "Закрыто".toList ↔
      (m.compensation ≤ m.effectiveAppliedCompensation ∧ 0 < m.compensation)) ∧
    (m.compensationStatusLabel = "Частично закрыто".toList ↔
      (¬(m.compensation ≤ m.effectiveAppliedCompensation ∧ 0 < m.compensation) ∧
        0 < m.effectiveAppliedCompensation)) ∧
    (m.compensationStatusLabel = "Открыто".toList ↔
      (¬(m.compensation ≤ m.effectiveAppliedCompensation ∧ 0 < m.compensation) ∧
        m.effectiveAppliedCompensation ≤ 0)) := by
  rw [fuelSummary_monthly, monthlyOf] at hm
  rcases List.mem_map.mp hm with ⟨b, hb, rfl⟩
  have d12 : ("Закрыто".toList : JsStr) ≠ "Частично закрыто".toList := by decide
  have d13 : ("Закрыто".toList : JsStr) ≠ "Открыто".toList := by decide
  have d23 : ("Частично закрыто".toList : JsStr) ≠ "Открыто".toList := by decide
  rw [mkMonthRow_statusLabel, mkMonthRow_isClosed, mkMonthRow_compensation,
    mkMonthRow_effectiveApplied]
  set adjs := adjustmentRecordsOf rs with hadjs
  set c := b.totalMileage * 5 with hc
  set e := monthPaid adjs b.key + monthEffectiveDebt adjs b.key with he
  by_cases h1 : c ≤ e ∧ 0 < c
  · rw [if_pos (by simpa using h1)]
    refine ⟨by simp [h1], ?_, ?_⟩
    · simp [d12.symm, h1]
    · simp [d13.symm, h1]
  · rw [if_neg (by simpa using h1)]
    by_cases h2 : 0 < e
    · rw [if_pos h2]
      refine ⟨by simp [d12, h1], by simp [h1, h2], by simp [d23.symm, h2]⟩
    · rw [if_neg h2]
      refine ⟨by simp [d13, h1], by simp [d23, h2], by simp [h1, not_lt.mp h2]⟩

/-- C1 counterexample: on `[fuelJuneRefuel, payJune100]` the June month has zero
accrued compensation and an applied payment of 100; the claim requires its status
to be `Открыто` (open), but the code computes `Частично закрыто` (partially
closed). -/
theorem c1_closure_status_counterexample :
    (fuelSummary [fuelJuneRefuel, payJune100]).monthly = [juneZeroAccrualRow] ∧
    juneZeroAccrualRow.compensation = 0 ∧
    juneZeroAccrualRow.effectiveAppliedCompensation = 100 ∧
    juneZeroAccrualRow.compensationStatusLabel = "Частично закрыто".toList ∧
    ("Частично закрыто".toList : JsStr) ≠ "Открыто".toList := by
  refine ⟨?_, by norm_num [juneZeroAccrualRow], by norm_num [juneZeroAccrualRow],
    rfl, by decide⟩
  simp +decide [fuelSummary, monthlyOf, bucketsOf, fuelOnlyRecordsOf, adjustmentRecordsOf,
    mkMonthRow, monthPaid, monthDebtItems, monthAdjustmentsFor, monthEffectiveDebt,
    effectiveDebtItemAmount, sumBy, buildMonthBuckets, upsertBucket, addToBucket,
    freshBucket, entryKey, entrySortKey, entryLabel, entryFuelNorm, getMonthInfo,
    normalizeDate, jsTrim, isJsSpace, splitDash, splitDashAux, jsStringToNum, digitsToNat,
    MONTH_LABELS, getFuelConsumptionRate, FUEL_CONSUMPTION_RATE,
    FUEL_CONSUMPTION_RATE_INCREASE, FUEL_CONSUMPTION_RATE_DATES, APPROX_FUEL_PRICE_RUB,
    sortByLe, insertLe, jsStrLt, jsStrLe, monthBucketLe, fuelItemLe, getRecordMonthKey,
    isMonthKeyShape, isAdjustmentRecord, isFuelRecord, fuelJuneRefuel, payJune100,
    juneZeroAccrualRow]

/-- C1 witness: on `[fuelJune, payJune5000]` the June month is fully paid; by the
amended theorem its status is `Закрыто`, and the closed/partial/open
characterizations hold at this concrete month. -/
theorem c1_closure_status_witness :
    (fuelSummary [fuelJune, payJune5000]).monthly = [juneClosedRow] ∧
    (juneClosedRow.compensationStatusLabel = "Закрыто".toList ↔
      (juneClosedRow.compensation ≤ juneClosedRow.effectiveAppliedCompensation ∧
        0 < juneClosedRow.compensation)) ∧
    juneClosedRow.compensationStatusLabel = "Закрыто".toList := by
  have hlist : (fuelSummary [fuelJune, payJune5000]).monthly = [juneClosedRow] := by
    simp +decide [fuelSummary, monthlyOf, bucketsOf, fuelOnlyRecordsOf, adjustmentRecordsOf,
      mkMonthRow, monthPaid, monthDebtItems, monthAdjustmentsFor, monthEffectiveDebt,
      effectiveDebtItemAmount, sumBy, buildMonthBuckets, upsertBucket, addToBucket,
      freshBucket, entryKey, entrySortKey, entryLabel, entryFuelNorm, getMonthInfo,
      normalizeDate, jsTrim, isJsSpace, splitDash, splitDashAux, jsStringToNum, digitsToNat,
      MONTH_LABELS, getFuelConsumptionRate, FUEL_CONSUMPTION_RATE,
      FUEL_CONSUMPTION_RATE_INCREASE, FUEL_CONSUMPTION_RATE_DATES, APPROX_FUEL_PRICE_RUB,
      sortByLe, insertLe, jsStrLt, jsStrLe, monthBucketLe, fuelItemLe, getRecordMonthKey,
      isMonthKeyShape, isAdjustmentRecord, isFuelRecord, fuelJune, payJune5000,
      juneClosedRow]
    norm_num
  have hmem : juneClosedRow ∈ (fuelSummary [fuelJune, payJune5000]).monthly := by
    rw [hlist]
    exact List.mem_singleton_self _
  exact ⟨hlist, (c1_closure_status [fuelJune, payJune5000] juneClosedRow hmem).1, rfl⟩

/-! ## Claim C8 -/

/-- C8: the period totals returned by the engine carry no boolean "estimated"
marker at all.  On a data set with a liters-only debt deduction (whose currency
value is approximated as liters × fixed price), the returned totals are exactly the
record below: the numeric `approxDebtDeductionAmount = 760` is present, but the
`hasEstimatedDebtDeductionAmount`/`hasEstimatedDebtDeductionLiters` booleans that
the repository's own `FuelSummaryTotals` type declares (and that the `FuelSection`
component reads to render `≈`) are not produced by the engine. -/
theorem c8_totals_no_estimated_marker :
    (fuelSummary [fuelJune, dedJune10l]).totals =
      { totalMileage := 1000, totalLiters := 80, fuelNorm := 94, totalFuelCost := 0,
        totalCompensation := 5000, totalPaidCompensation := 0,
        totalDebtDeductionAmount := 0, approxDebtDeductionAmount := 760,
        totalDebtDeductionLiters := 10, netCompensation := 4240, fuelDiff := 14,
        adjustedFuelDiff := 24 } := by
  simp +decide [fuelSummary, monthlyOf, bucketsOf, fuelOnlyRecordsOf, adjustmentRecordsOf,
    paymentAdjustmentsOf, debtAdjustmentsOf, mkMonthRow, monthPaid, monthDebtItems,
    monthAdjustmentsFor, monthEffectiveDebt, effectiveDebtItemAmount, sumBy,
    buildMonthBuckets, upsertBucket, addToBucket, freshBucket, entryKey, entrySortKey,
    entryLabel, entryFuelNorm, getMonthInfo, normalizeDate, jsTrim, isJsSpace, splitDash,
    splitDashAux, jsStringToNum, digitsToNat, MONTH_LABELS, getFuelConsumptionRate,
    FUEL_CONSUMPTION_RATE, FUEL_CONSUMPTION_RATE_INCREASE, FUEL_CONSUMPTION_RATE_DATES,
    APPROX_FUEL_PRICE_RUB, sortByLe, insertLe, jsStrLt, jsStrLe, monthBucketLe,
    fuelItemLe, getRecordMonthKey, isMonthKeyShape, isAdjustmentRecord, isFuelRecord,
    fuelJune, dedJune10l]
  norm_num

/-! ## Claim C9 -/

/-- C9 (amended): `validateFuelRecord` raises an error exactly when the record
violates the code's per-kind requirements — an empty date on any record; for a fuel
record, none of mileage/liters/cost present, or a present mileage, liters or cost
that is NaN or negative; for an adjustment, a missing adjustment kind, a non-empty
(trimmed) `monthKey` not matching `YYYY-MM`, a NaN/negative amount, carry-over debt
or liters figure, a `compensation_payment` without an amount, a `debt_deduction`
with neither amount nor liters, or a carry-over debt figure on a non-deduction. -/
theorem exists_error_ite (c : Prop) [Decidable c] (m : JsStr)
    (rest : Except JsStr Unit) :
    (∃ msg, (if c then Except.error m else rest) = Except.error msg) ↔
      (c ∨ ∃ msg, rest = Except.error msg) := by
  by_cases hc : c
  · simp [hc]
  · simp [hc]

theorem c9_validation_boundary (r : ApiFuelRecord) :
    (∃ msg : JsStr, validateFuelRecord r = Except.error msg) ↔
      codeErrorCondition r := by
  by_cases hrt : r.recordType = some RecordType.adjustment
  · simp only [validateFuelRecord, codeErrorCondition, hrt, if_pos,
      reduceCtorEq, if_true, if_false, exists_error_ite]
    simp [exists_error_ite]
  · simp only [validateFuelRecord, codeErrorCondition, if_neg hrt, exists_error_ite]
    simp [exists_error_ite]

/-- C9 counterexample: a fuel record with a mileage of 5 and an empty date violates
none of the claim's enumerated requirements, yet `validateFuelRecord` raises the
"specify a date" error — so the claimed "exactly when" fails. -/
theorem c9_validation_boundary_counterexample :
    validateFuelRecord apiFuelNoDate =
      Except.error "Укажите дату записи топлива.".toList ∧
    specClaimedErrorCondition apiFuelNoDate = false := by
  constructor
  · rfl
  · decide

/-- C9 witness: the amended characterization applied at the concrete empty-date
record — the code's error condition holds there. -/
theorem c9_validation_boundary_witness :
    codeErrorCondition apiFuelNoDate :=
  (c9_validation_boundary apiFuelNoDate).mp ⟨"Укажите дату записи топлива.".toList,
    rfl⟩

end FuelSpec
